import Mathlib

/-!
# Verification of the tile-puzzles engine

A shallow embedding of the polyomino tiling-puzzle engine of the
`math-help` repository (`src/applets/tile-puzzles/index.jsx` and its
`levels.js` shape library), together with proofs of the specified
properties of the shape rotation transform, the placement validator,
the grid place/remove operations, the completion detector, the tray
packer and the circular-gesture recognizer.

JavaScript arrays become Lean lists, `null`-able piece ids become
`Option ℕ`, integer cell coordinates become `ℤ`, and the pixel
arithmetic of the tray packer becomes exact rational arithmetic `ℚ`
(every constant involved — `CELL`, `TRAY_SCALE`, gaps and paddings —
is rational, so the embedding is exact).  The floating-point pointer
geometry of the gesture recognizer is modelled over the real numbers.
-/

namespace TilePuzzles

/-- `Math.max(...l)` over a non-empty list of integers (the engine only
ever applies it to non-empty cell lists). -/
def listMax : List ℤ → ℤ
  | [] => 0
  | [x] => x
  | x :: y :: t => max x (listMax (y :: t))

/-- `Math.min(...l)` over a non-empty list of integers. -/
def listMin : List ℤ → ℤ
  | [] => 0
  | [x] => x
  | x :: y :: t => min x (listMin (y :: t))

/-- `levels.js` / `rotateCW`:

    const maxR = Math.max(...cells.map(([r]) => r))
    const rotated = cells.map(([r, c]) => [c, maxR - r])
    const minR = Math.min(...rotated.map(([r]) => r))
    const minC = Math.min(...rotated.map(([, c]) => c))
    return rotated.map(([r, c]) => [r - minR, c - minC])
-/
def rotateCW (cells : List (ℤ × ℤ)) : List (ℤ × ℤ) :=
  let maxR := listMax (cells.map Prod.fst)
  let rotated := cells.map fun rc => (rc.2, maxR - rc.1)
  let minR := listMin (rotated.map Prod.fst)
  let minC := listMin (rotated.map Prod.snd)
  rotated.map fun rc => (rc.1 - minR, rc.2 - minC)

/-- `index.jsx` / `applyRotation`: apply `rotateCW` `rotation % 4` times. -/
def applyRotation (baseCells : List (ℤ × ℤ)) (rotation : ℕ) : List (ℤ × ℤ) :=
  rotateCW^[rotation % 4] baseCells

/-- The occupancy map: a list of `gridHeight` rows, each a list of
`gridWidth` cells, a cell holding `none` (JS `null`) or a piece id. -/
abbrev Grid := List (List (Option ℕ))

/-- `grid[r][c]`, reading `none` out of range.  The engine only indexes
the grid after a bounds check, so the out-of-range default is never
observable through the embedded operations. -/
def cellAt (grid : Grid) (r c : ℤ) : Option ℕ :=
  (grid.getD r.toNat []).getD c.toNat none

/-- `index.jsx` / `canPlace(grid, cells, row, col, w, h, selfId)`:

    for (const [r, c] of cells) {
      const gr = row + r
      const gc = col + c
      if (gr < 0 || gr >= h || gc < 0 || gc >= w) return false
      if (grid[gr][gc] !== null && grid[gr][gc] !== selfId) return false
    }
    return true
-/
def canPlace (grid : Grid) (cells : List (ℤ × ℤ)) (row col : ℤ) (w h : ℕ)
    (selfId : Option ℕ) : Bool :=
  cells.all fun rc =>
    let gr := row + rc.1
    let gc := col + rc.2
    if gr < 0 ∨ (h : ℤ) ≤ gr ∨ gc < 0 ∨ (w : ℤ) ≤ gc then false
    else if cellAt grid gr gc ≠ none ∧ cellAt grid gr gc ≠ selfId then false
    else true

/-- One puzzle piece (`initPieces` record of `index.jsx`). -/
structure Piece where
  id : ℕ
  baseShape : List (ℤ × ℤ)
  rotation : ℕ
  color : String
  placed : Bool
  gridRow : ℤ
  gridCol : ℤ
  trayOrder : ℕ
deriving DecidableEq

/-- `index.jsx` / `getCells`: a piece's effective cell-set. -/
def getCells (piece : Piece) : List (ℤ × ℤ) :=
  applyRotation piece.baseShape piece.rotation

/-- `index.jsx` / `checkCompletion(grid, pieces)`:

    if (pieces.some(p => !p.placed)) return false
    for (const row of grid) for (const cell of row)
      if (cell === null) return false
    return true
-/
def checkCompletion (grid : Grid) (pieces : List Piece) : Bool :=
  if pieces.any fun p => !p.placed then false
  else grid.all fun row => row.all fun cell => cell ≠ none

/-- `index.jsx` / `makeGrid(w, h)`: h rows of w empty cells. -/
def makeGrid (w h : ℕ) : Grid :=
  List.replicate h (List.replicate w none)

/-- The engine's combined mutable state: the occupancy map and the
piece records (the two `useState` cells `grid` and `pieces`). -/
structure PState where
  grid : Grid
  pieces : List Piece
deriving DecidableEq

/-- One JS assignment `newGrid[r][c] = v` (out-of-range writes cannot
happen in the engine: every write follows a `canPlace` bounds check). -/
def setCell (grid : Grid) (r c : ℕ) (v : Option ℕ) : Grid :=
  grid.set r ((grid.getD r []).set c v)

/-- The write loop of `placePiece`:

    for (const [r, c] of cells) newGrid[row + r][col + c] = pieceId
-/
def writeCells (grid : Grid) (cells : List (ℤ × ℤ)) (row col : ℤ) (pieceId : ℕ) :
    Grid :=
  cells.foldl
    (fun g rc => setCell g (row + rc.1).toNat (col + rc.2).toNat (some pieceId)) grid

/-- `index.jsx` / `placePiece(pieceId, row, col)` acting on the combined
state.  Faithful to the source: the grid is only written when `canPlace`
holds, but the piece record is marked placed (with the requested origin)
whenever the piece exists, even when `canPlace` fails — the pieces update
sits outside the validation guard in the source. -/
def placePiece (w h : ℕ) (st : PState) (pieceId : ℕ) (row col : ℤ) : PState :=
  match st.pieces.find? fun p => p.id == pieceId with
  | none => st
  | some piece =>
      let cells := getCells piece
      { grid :=
          if canPlace st.grid cells row col w h none then
            writeCells st.grid cells row col pieceId
          else st.grid
        pieces := st.pieces.map fun p =>
          if p.id == pieceId then
            { p with placed := true, gridRow := row, gridCol := col }
          else p }

/-- The grid sweep of `removePiece`:

    prevGrid.map(r => r.map(c => c === pieceId ? null : c))
-/
def clearGrid (grid : Grid) (pieceId : ℕ) : Grid :=
  grid.map fun r => r.map fun c => if c = some pieceId then none else c

/-- `index.jsx` / `removePiece(pieceId)`: no-op unless the piece exists
and is placed; otherwise clears the piece's cells and unmarks it. -/
def removePiece (st : PState) (pieceId : ℕ) : PState :=
  match st.pieces.find? fun p => p.id == pieceId with
  | none => st
  | some piece =>
      if piece.placed then
        { grid := clearGrid st.grid pieceId
          pieces := st.pieces.map fun p =>
            if p.id == pieceId then { p with placed := false } else p }
      else st

/-! ## The placement validator (claim C1) -/

lemma canPlace_cell_iff (grid : Grid) (row col : ℤ) (w h : ℕ) (selfId : Option ℕ)
    (rc : ℤ × ℤ) :
    ((if row + rc.1 < 0 ∨ (h : ℤ) ≤ row + rc.1 ∨ col + rc.2 < 0 ∨ (w : ℤ) ≤ col + rc.2
        then false
      else if cellAt grid (row + rc.1) (col + rc.2) ≠ none ∧
          cellAt grid (row + rc.1) (col + rc.2) ≠ selfId then false
      else true) = true) ↔
      ((0 ≤ row + rc.1 ∧ row + rc.1 < (h : ℤ) ∧ 0 ≤ col + rc.2 ∧ col + rc.2 < (w : ℤ)) ∧
        (cellAt grid (row + rc.1) (col + rc.2) = none ∨
          cellAt grid (row + rc.1) (col + rc.2) = selfId)) := by
  split_ifs with h1 h2
  · simp only [Bool.false_eq_true, false_iff]
    rintro ⟨hb, -⟩
    omega
  · simp only [Bool.false_eq_true, false_iff]
    intro h
    rcases h.2 with h' | h'
    · exact h2.1 h'
    · exact h2.2 h'
  · simp only [true_iff]
    push_neg at h1 h2
    refine ⟨by omega, ?_⟩
    by_cases hn : cellAt grid (row + rc.1) (col + rc.2) = none
    · exact Or.inl hn
    · exact Or.inr (h2 hn)

lemma canPlace_spec (grid : Grid) (cells : List (ℤ × ℤ)) (row col : ℤ) (w h : ℕ)
    (selfId : Option ℕ) :
    canPlace grid cells row col w h selfId = true ↔
      ∀ rc ∈ cells,
        (0 ≤ row + rc.1 ∧ row + rc.1 < (h : ℤ) ∧ 0 ≤ col + rc.2 ∧ col + rc.2 < (w : ℤ)) ∧
          (cellAt grid (row + rc.1) (col + rc.2) = none ∨
            cellAt grid (row + rc.1) (col + rc.2) = selfId) := by
  rw [canPlace, List.all_eq_true]
  constructor
  · intro hall rc hrc
    exact (canPlace_cell_iff grid row col w h selfId rc).mp (hall rc hrc)
  · intro hall rc hrc
    exact (canPlace_cell_iff grid row col w h selfId rc).mpr (hall rc hrc)

/-- C1.  `canPlace` returns true iff every cell of the candidate set,
translated to its absolute position, is in bounds and its grid cell is
empty or holds `excludePieceId`; in particular one out-of-bounds cell
forces a false answer. -/
theorem canPlace_bounds_overlap_spec (grid : Grid) (cells : List (ℤ × ℤ))
    (row col : ℤ) (w h : ℕ) (excludePieceId : Option ℕ) :
    (canPlace grid cells row col w h excludePieceId = true ↔
      ∀ rc ∈ cells,
        (0 ≤ row + rc.1 ∧ row + rc.1 < (h : ℤ) ∧ 0 ≤ col + rc.2 ∧ col + rc.2 < (w : ℤ)) ∧
          (cellAt grid (row + rc.1) (col + rc.2) = none ∨
            cellAt grid (row + rc.1) (col + rc.2) = excludePieceId)) ∧
    ((∃ rc ∈ cells,
        ¬(0 ≤ row + rc.1 ∧ row + rc.1 < (h : ℤ) ∧ 0 ≤ col + rc.2 ∧ col + rc.2 < (w : ℤ))) →
      canPlace grid cells row col w h excludePieceId = false) := by
  refine ⟨canPlace_spec grid cells row col w h excludePieceId, ?_⟩
  rintro ⟨rc, hrc, hout⟩
  by_contra hne
  have htrue : canPlace grid cells row col w h excludePieceId = true := by
    cases hcp : canPlace grid cells row col w h excludePieceId
    · exact absurd hcp hne
    · rfl
  exact hout ((canPlace_spec grid cells row col w h excludePieceId).mp htrue rc hrc).1

/-! ## The completion detector (claim C2) -/

lemma checkCompletion_spec (grid : Grid) (pieces : List Piece) :
    checkCompletion grid pieces = true ↔
      (∀ p ∈ pieces, p.placed = true) ∧ ∀ row ∈ grid, ∀ cell ∈ row, cell ≠ none := by
  rw [checkCompletion]
  split_ifs with hany
  · simp only [Bool.false_eq_true, false_iff]
    rintro ⟨hplaced, -⟩
    rcases List.any_eq_true.mp hany with ⟨p, hp, hnp⟩
    rw [hplaced p hp] at hnp
    simp at hnp
  · simp only [List.all_eq_true, decide_eq_true_eq, iff_def]
    constructor
    · intro hcells
      refine ⟨fun p hp => ?_, hcells⟩
      by_contra hnp
      exact hany (List.any_eq_true.mpr ⟨p, hp, by simp [hnp]⟩)
    · exact fun h => h.2

/-- C2.  `checkCompletion` is true iff every piece is placed and every
grid cell is non-empty; in particular a state with every piece placed
but an empty cell, or with no empty cell but an unplaced piece, yields
false. -/
theorem checkCompletion_iff_spec (grid : Grid) (pieces : List Piece) :
    (checkCompletion grid pieces = true ↔
      (∀ p ∈ pieces, p.placed = true) ∧ ∀ row ∈ grid, ∀ cell ∈ row, cell ≠ none) ∧
    ((∀ p ∈ pieces, p.placed = true) → (∃ row ∈ grid, ∃ cell ∈ row, cell = none) →
      checkCompletion grid pieces = false) ∧
    ((∀ row ∈ grid, ∀ cell ∈ row, cell ≠ none) → (∃ p ∈ pieces, p.placed = false) →
      checkCompletion grid pieces = false) := by
  refine ⟨checkCompletion_spec grid pieces, ?_, ?_⟩
  · rintro hplaced ⟨r, hr, cell, hc, hnone⟩
    cases hcc : checkCompletion grid pieces
    · rfl
    · exact absurd hnone (((checkCompletion_spec grid pieces).mp hcc).2 r hr cell hc)
  · rintro hfull ⟨p, hp, hnp⟩
    cases hcc : checkCompletion grid pieces
    · rfl
    · rw [((checkCompletion_spec grid pieces).mp hcc).1 p hp] at hnp
      cases hnp

/-! ## The rotation transform (claims C3 and C10) -/

lemma listMin_cons_cons (x y : ℤ) (t : List ℤ) :
    listMin (x :: y :: t) = min x (listMin (y :: t)) := rfl

lemma listMax_cons_cons (x y : ℤ) (t : List ℤ) :
    listMax (x :: y :: t) = max x (listMax (y :: t)) := rfl

lemma listMin_map_sub (a : ℤ) :
    ∀ l : List ℤ, l ≠ [] → listMin (l.map fun x => a - x) = a - listMax l := by
  intro l
  induction l with
  | nil => intro h; exact absurd rfl h
  | cons x t ih =>
    intro _
    cases t with
    | nil => simp [listMin, listMax]
    | cons y t' =>
      have ih' := ih (by simp)
      simp only [List.map_cons] at ih' ⊢
      rw [listMin_cons_cons, listMax_cons_cons, ih', min_sub_sub_left]

lemma listMax_map_sub (a : ℤ) :
    ∀ l : List ℤ, l ≠ [] → listMax (l.map fun x => a - x) = a - listMin l := by
  intro l
  induction l with
  | nil => intro h; exact absurd rfl h
  | cons x t ih =>
    intro _
    cases t with
    | nil => simp [listMin, listMax]
    | cons y t' =>
      have ih' := ih (by simp)
      simp only [List.map_cons] at ih' ⊢
      rw [listMax_cons_cons, listMin_cons_cons, ih', max_sub_sub_left]

lemma map_pair_fst (S : List (ℤ × ℤ)) (u v : ℤ × ℤ → ℤ) :
    (S.map fun rc => (u rc, v rc)).map Prod.fst = S.map u := by
  rw [List.map_map]; rfl

lemma map_pair_snd (S : List (ℤ × ℤ)) (u v : ℤ × ℤ → ℤ) :
    (S.map fun rc => (u rc, v rc)).map Prod.snd = S.map v := by
  rw [List.map_map]; rfl

lemma map_sub_fst (S : List (ℤ × ℤ)) (a : ℤ) :
    S.map (fun rc => a - rc.1) = (S.map Prod.fst).map fun x => a - x := by
  rw [List.map_map]; rfl

lemma map_sub_snd (S : List (ℤ × ℤ)) (a : ℤ) :
    S.map (fun rc => a - rc.2) = (S.map Prod.snd).map fun x => a - x := by
  rw [List.map_map]; rfl

/-- On a cell list whose minimum column is 0, the re-normalization inside
`rotateCW` subtracts nothing, so `rotateCW` is just the raw rotation map. -/
lemma rotateCW_of_normalized (S : List (ℤ × ℤ)) (hne : S ≠ [])
    (hc : listMin (S.map Prod.snd) = 0) :
    rotateCW S = S.map fun rc => (rc.2, listMax (S.map Prod.fst) - rc.1) := by
  have hSne : S.map Prod.fst ≠ [] := by simpa using hne
  simp only [rotateCW]
  rw [map_pair_fst, map_pair_snd, map_sub_fst, hc, listMin_map_sub _ _ hSne, sub_self]
  rw [List.map_congr_left (g := id) fun rc _ => by simp, List.map_id]

/-- Applying `rotateCW` four times to a non-empty normalized cell list
returns the very same list. -/
lemma rot4_eq (S : List (ℤ × ℤ)) (hne : S ≠ [])
    (hr : listMin (S.map Prod.fst) = 0) (hc : listMin (S.map Prod.snd) = 0) :
    rotateCW (rotateCW (rotateCW (rotateCW S))) = S := by
  have hfne : S.map Prod.fst ≠ [] := by simpa using hne
  have hsne : S.map Prod.snd ≠ [] := by simpa using hne
  -- step 1: S₁ = rotateCW S
  have e1 : rotateCW S =
      S.map fun rc => (rc.2, listMax (S.map Prod.fst) - rc.1) :=
    rotateCW_of_normalized S hne hc
  have h1ne : rotateCW S ≠ [] := by rw [e1]; simpa using hne
  have h1fst : (rotateCW S).map Prod.fst = S.map Prod.snd := by
    rw [e1, map_pair_fst]
  have h1snd : (rotateCW S).map Prod.snd =
      (S.map Prod.fst).map fun x => listMax (S.map Prod.fst) - x := by
    rw [e1, map_pair_snd, map_sub_fst]
  have h1minsnd : listMin ((rotateCW S).map Prod.snd) = 0 := by
    rw [h1snd, listMin_map_sub _ _ hfne, sub_self]
  -- step 2: S₂ = rotateCW S₁
  have e2 : rotateCW (rotateCW S) =
      S.map fun rc =>
        (listMax (S.map Prod.fst) - rc.1, listMax (S.map Prod.snd) - rc.2) := by
    rw [rotateCW_of_normalized (rotateCW S) h1ne h1minsnd, h1fst, e1, List.map_map]
    rfl
  have h2ne : rotateCW (rotateCW S) ≠ [] := by rw [e2]; simpa using hne
  have h2fst : (rotateCW (rotateCW S)).map Prod.fst =
      (S.map Prod.fst).map fun x => listMax (S.map Prod.fst) - x := by
    rw [e2, map_pair_fst, map_sub_fst]
  have h2snd : (rotateCW (rotateCW S)).map Prod.snd =
      (S.map Prod.snd).map fun x => listMax (S.map Prod.snd) - x := by
    rw [e2, map_pair_snd, map_sub_snd]
  have h2minsnd : listMin ((rotateCW (rotateCW S)).map Prod.snd) = 0 := by
    rw [h2snd, listMin_map_sub _ _ hsne, sub_self]
  have h2maxfst : listMax ((rotateCW (rotateCW S)).map Prod.fst) =
      listMax (S.map Prod.fst) := by
    rw [h2fst, listMax_map_sub _ _ hfne, hr, sub_zero]
  -- step 3: S₃ = rotateCW S₂, which simplifies to rc ↦ (N - rc.2, rc.1)
  have e3 : rotateCW (rotateCW (rotateCW S)) =
      S.map fun rc => (listMax (S.map Prod.snd) - rc.2, rc.1) := by
    rw [rotateCW_of_normalized (rotateCW (rotateCW S)) h2ne h2minsnd, h2maxfst, e2,
      List.map_map]
    exact List.map_congr_left fun rc _ => by
      simp only [Function.comp_apply, Prod.mk.injEq, sub_sub_cancel, and_self]
  have h3ne : rotateCW (rotateCW (rotateCW S)) ≠ [] := by rw [e3]; simpa using hne
  have h3snd : (rotateCW (rotateCW (rotateCW S))).map Prod.snd = S.map Prod.fst := by
    rw [e3, map_pair_snd]
  have h3minsnd : listMin ((rotateCW (rotateCW (rotateCW S))).map Prod.snd) = 0 := by
    rw [h3snd, hr]
  have h3fst : (rotateCW (rotateCW (rotateCW S))).map Prod.fst =
      (S.map Prod.snd).map fun x => listMax (S.map Prod.snd) - x := by
    rw [e3, map_pair_fst, map_sub_snd]
  have h3maxfst : listMax ((rotateCW (rotateCW (rotateCW S))).map Prod.fst) =
      listMax (S.map Prod.snd) := by
    rw [h3fst, listMax_map_sub _ _ hsne, hc, sub_zero]
  -- step 4: back to S
  rw [rotateCW_of_normalized (rotateCW (rotateCW (rotateCW S))) h3ne h3minsnd,
    h3maxfst, e3, List.map_map]
  rw [List.map_congr_left (g := id) fun rc _ => by
    simp only [Function.comp_apply, id_eq, sub_sub_cancel], List.map_id]

/-- C3.  Applying `rotateCW` exactly four times to a non-empty normalized
cell list yields a cell-set equal, as a set, to the original. -/
theorem rotateCW_four_times_set_eq (cells : List (ℤ × ℤ)) (hne : cells ≠ [])
    (hrow : listMin (cells.map Prod.fst) = 0)
    (hcol : listMin (cells.map Prod.snd) = 0) :
    ∀ x, x ∈ rotateCW (rotateCW (rotateCW (rotateCW cells))) ↔ x ∈ cells := by
  rw [rot4_eq cells hne hrow hcol]
  exact fun x => Iff.rfl

/-- Witness for C3 at the L-triomino shape. -/
theorem rotateCW_four_times_set_eq_witness :
    (([((0 : ℤ), (0 : ℤ)), (1, 0), (1, 1)] : List (ℤ × ℤ)) ≠ [] ∧
      listMin (([((0 : ℤ), (0 : ℤ)), (1, 0), (1, 1)] : List (ℤ × ℤ)).map Prod.fst) = 0 ∧
      listMin (([((0 : ℤ), (0 : ℤ)), (1, 0), (1, 1)] : List (ℤ × ℤ)).map Prod.snd) = 0) ∧
    ∀ x, x ∈ rotateCW (rotateCW (rotateCW (rotateCW
        [((0 : ℤ), (0 : ℤ)), (1, 0), (1, 1)]))) ↔
      x ∈ ([((0 : ℤ), (0 : ℤ)), (1, 0), (1, 1)] : List (ℤ × ℤ)) :=
  ⟨⟨by decide, by decide, by decide⟩,
    rotateCW_four_times_set_eq [((0 : ℤ), (0 : ℤ)), (1, 0), (1, 1)]
      (by decide) (by decide) (by decide)⟩

lemma rotateCW_length (cells : List (ℤ × ℤ)) :
    (rotateCW cells).length = cells.length := by
  simp [rotateCW]

lemma rotateCW_nodup (cells : List (ℤ × ℤ)) (h : cells.Nodup) :
    (rotateCW cells).Nodup := by
  simp only [rotateCW]
  refine List.Nodup.map ?_ (List.Nodup.map ?_ h)
  · intro a b hab
    simp only [Prod.mk.injEq] at hab
    exact Prod.ext (by omega) (by omega)
  · intro a b hab
    simp only [Prod.mk.injEq] at hab
    exact Prod.ext (by omega) (by omega)

lemma iterate_rotateCW_length (cells : List (ℤ × ℤ)) (n : ℕ) :
    (rotateCW^[n] cells).length = cells.length := by
  induction n with
  | zero => rfl
  | succ k ih => rw [Function.iterate_succ_apply', rotateCW_length, ih]

lemma iterate_rotateCW_nodup (cells : List (ℤ × ℤ)) (n : ℕ) (h : cells.Nodup) :
    (rotateCW^[n] cells).Nodup := by
  induction n with
  | zero => exact h
  | succ k ih => rw [Function.iterate_succ_apply']; exact rotateCW_nodup _ ih

/-- C10.  `rotateCW` never collapses distinct cells: on a duplicate-free
cell list it returns a duplicate-free list of the same length, and hence
a piece's effective cell-set (`applyRotation`) has exactly the base
shape's cell count for every rotation count. -/
theorem rotateCW_preserves_cell_count (cells : List (ℤ × ℤ)) (hne : cells ≠ [])
    (hnd : cells.Nodup) :
    ((rotateCW cells).Nodup ∧ (rotateCW cells).length = cells.length) ∧
    ∀ rotation : ℕ, (applyRotation cells rotation).Nodup ∧
      (applyRotation cells rotation).length = cells.length := by
  refine ⟨⟨rotateCW_nodup cells hnd, rotateCW_length cells⟩, fun rotation => ?_⟩
  rw [applyRotation]
  exact ⟨iterate_rotateCW_nodup cells _ hnd, iterate_rotateCW_length cells _⟩

/-- Witness for C10 at the domino shape. -/
theorem rotateCW_preserves_cell_count_witness :
    (([((0 : ℤ), (0 : ℤ)), (0, 1)] : List (ℤ × ℤ)) ≠ [] ∧
      ([((0 : ℤ), (0 : ℤ)), (0, 1)] : List (ℤ × ℤ)).Nodup) ∧
    ((rotateCW [((0 : ℤ), (0 : ℤ)), (0, 1)]).Nodup ∧
      (rotateCW [((0 : ℤ), (0 : ℤ)), (0, 1)]).length =
        ([((0 : ℤ), (0 : ℤ)), (0, 1)] : List (ℤ × ℤ)).length) ∧
    ∀ rotation : ℕ,
      (applyRotation [((0 : ℤ), (0 : ℤ)), (0, 1)] rotation).Nodup ∧
      (applyRotation [((0 : ℤ), (0 : ℤ)), (0, 1)] rotation).length =
        ([((0 : ℤ), (0 : ℤ)), (0, 1)] : List (ℤ × ℤ)).length :=
  ⟨⟨by decide, by decide⟩,
    rotateCW_preserves_cell_count [((0 : ℤ), (0 : ℤ)), (0, 1)] (by decide) (by decide)⟩

/-! ## List indexing helpers for the occupancy map -/

/-- `cellAt` at already-non-negative (ℕ) coordinates. -/
def cellN (grid : Grid) (r c : ℕ) : Option ℕ :=
  (grid.getD r []).getD c none

lemma cellAt_eq_cellN (grid : Grid) (r c : ℤ) :
    cellAt grid r c = cellN grid r.toNat c.toNat := rfl

lemma getD_set_ne {α : Type} : ∀ (l : List α) (i j : ℕ) (a d : α), i ≠ j →
    (l.set i a).getD j d = l.getD j d := by
  intro l
  induction l with
  | nil => intros; rfl
  | cons x t ih =>
    intro i j a d hij
    cases i with
    | zero =>
      cases j with
      | zero => exact absurd rfl hij
      | succ k => rfl
    | succ i' =>
      cases j with
      | zero => rfl
      | succ k => exact ih i' k a d (by omega)

lemma getD_set_self {α : Type} : ∀ (l : List α) (i : ℕ) (a d : α), i < l.length →
    (l.set i a).getD i d = a := by
  intro l
  induction l with
  | nil => intro i a d hi; simp at hi
  | cons x t ih =>
    intro i a d hi
    cases i with
    | zero => rfl
    | succ k => exact ih k a d (by simpa using hi)

lemma set_of_length_le {α : Type} : ∀ (l : List α) (i : ℕ) (a : α), l.length ≤ i →
    l.set i a = l := by
  intro l
  induction l with
  | nil => intros; rfl
  | cons x t ih =>
    intro i a hi
    cases i with
    | zero => simp at hi
    | succ k =>
      show x :: t.set k a = x :: t
      rw [ih k a (by simpa using hi)]

lemma set_getD_self {α : Type} : ∀ (l : List α) (i : ℕ) (d : α),
    l.set i (l.getD i d) = l := by
  intro l
  induction l with
  | nil => intros; rfl
  | cons x t ih =>
    intro i d
    cases i with
    | zero => rfl
    | succ k =>
      show x :: t.set k (t.getD k d) = x :: t
      rw [ih k d]

lemma getD_of_length_le {α : Type} : ∀ (l : List α) (i : ℕ) (d : α), l.length ≤ i →
    l.getD i d = d := by
  intro l
  induction l with
  | nil => intros; rfl
  | cons x t ih =>
    intro i d hi
    cases i with
    | zero => simp at hi
    | succ k => exact ih k d (by simpa using hi)

lemma getD_map {α β : Type} (f : α → β) : ∀ (l : List α) (i : ℕ) (d : α),
    (l.map f).getD i (f d) = f (l.getD i d) := by
  intro l
  induction l with
  | nil => intros; rfl
  | cons x t ih =>
    intro i d
    cases i with
    | zero => rfl
    | succ k => exact ih k d

lemma getD_mem {α : Type} : ∀ (l : List α) (i : ℕ) (d : α), i < l.length →
    l.getD i d ∈ l := by
  intro l
  induction l with
  | nil => intro i d hi; simp at hi
  | cons x t ih =>
    intro i d hi
    cases i with
    | zero => exact List.mem_cons_self x t
    | succ k => exact List.mem_cons_of_mem x (ih k d (by simpa using hi))

lemma row_ext : ∀ r₁ r₂ : List (Option ℕ), r₁.length = r₂.length →
    (∀ c, r₁.getD c none = r₂.getD c none) → r₁ = r₂ := by
  intro r₁
  induction r₁ with
  | nil =>
    intro r₂ hlen _
    cases r₂ with
    | nil => rfl
    | cons y t => simp at hlen
  | cons x t ih =>
    intro r₂ hlen hcell
    cases r₂ with
    | nil => simp at hlen
    | cons y t' =>
      have hx : x = y := hcell 0
      have ht : t = t' := ih t' (by simpa using hlen) fun c => hcell (c + 1)
      rw [hx, ht]

lemma grid_ext : ∀ g₁ g₂ : Grid, g₁.length = g₂.length →
    (∀ r, (g₁.getD r []).length = (g₂.getD r []).length) →
    (∀ r c, cellN g₁ r c = cellN g₂ r c) → g₁ = g₂ := by
  intro g₁
  induction g₁ with
  | nil =>
    intro g₂ hlen _ _
    cases g₂ with
    | nil => rfl
    | cons y t => simp at hlen
  | cons x t ih =>
    intro g₂ hlen hrow hcell
    cases g₂ with
    | nil => simp at hlen
    | cons y t' =>
      have hx : x = y := row_ext x y (hrow 0) fun c => hcell 0 c
      have ht : t = t' := ih t' (by simpa using hlen)
        (fun r => hrow (r + 1)) fun r c => hcell (r + 1) c
      rw [hx, ht]

lemma rows_length_iff (g : Grid) (w : ℕ) :
    (∀ r ∈ g, r.length = w) ↔ ∀ i, i < g.length → (g.getD i []).length = w := by
  constructor
  · intro hmem i hi
    exact hmem _ (getD_mem g i [] hi)
  · intro hidx r hr
    rcases List.getElem_of_mem hr with ⟨i, hi, hget⟩
    have := hidx i hi
    rwa [List.getD_eq_getElem g [] hi, hget] at this

/-! ## Pointwise behaviour of the write and clear operations -/

lemma setCell_length (g : Grid) (r c : ℕ) (v : Option ℕ) :
    (setCell g r c v).length = g.length := by
  rw [setCell, List.length_set]

lemma setCell_row_length (g : Grid) (r c : ℕ) (v : Option ℕ) (i : ℕ) :
    ((setCell g r c v).getD i []).length = (g.getD i []).length := by
  rw [setCell]
  by_cases hi : r = i
  · subst hi
    by_cases hr : r < g.length
    · rw [getD_set_self _ _ _ _ hr, List.length_set]
    · rw [set_of_length_le _ _ _ (le_of_not_lt hr)]
  · rw [getD_set_ne _ _ _ _ _ hi]

lemma cellN_setCell_ne (g : Grid) (r c : ℕ) (v : Option ℕ) (r' c' : ℕ)
    (hne : (r', c') ≠ (r, c)) :
    cellN (setCell g r c v) r' c' = cellN g r' c' := by
  unfold cellN setCell
  by_cases hr : r = r'
  · subst hr
    have hc : c ≠ c' := fun hcc => hne (by rw [hcc])
    by_cases hlen : r < g.length
    · rw [getD_set_self _ _ _ _ hlen, getD_set_ne _ _ _ _ _ hc]
    · rw [set_of_length_le _ _ _ (le_of_not_lt hlen)]
  · rw [getD_set_ne _ _ _ _ _ hr]

lemma cellN_setCell_self (g : Grid) (r c : ℕ) (v : Option ℕ)
    (hr : r < g.length) (hc : c < (g.getD r []).length) :
    cellN (setCell g r c v) r c = v := by
  unfold cellN setCell
  rw [getD_set_self _ _ _ _ hr, getD_set_self _ _ _ _ hc]

lemma writeCells_nil (g : Grid) (row col : ℤ) (pieceId : ℕ) :
    writeCells g [] row col pieceId = g := rfl

lemma writeCells_cons (g : Grid) (rc : ℤ × ℤ) (rest : List (ℤ × ℤ))
    (row col : ℤ) (pieceId : ℕ) :
    writeCells g (rc :: rest) row col pieceId =
      writeCells (setCell g (row + rc.1).toNat (col + rc.2).toNat (some pieceId))
        rest row col pieceId := by
  rw [writeCells, writeCells, List.foldl_cons]

lemma writeCells_length (row col : ℤ) (pieceId : ℕ) :
    ∀ (cells : List (ℤ × ℤ)) (g : Grid),
      (writeCells g cells row col pieceId).length = g.length := by
  intro cells
  induction cells with
  | nil => intro g; rfl
  | cons rc rest ih =>
    intro g
    rw [writeCells_cons, ih, setCell_length]

lemma writeCells_row_length (row col : ℤ) (pieceId : ℕ) :
    ∀ (cells : List (ℤ × ℤ)) (g : Grid) (i : ℕ),
      ((writeCells g cells row col pieceId).getD i []).length =
        (g.getD i []).length := by
  intro cells
  induction cells with
  | nil => intro g i; rfl
  | cons rc rest ih =>
    intro g i
    rw [writeCells_cons, ih, setCell_row_length]

/-- Cells outside the written footprint are untouched by the write loop. -/
lemma cellN_writeCells_not_target (row col : ℤ) (pieceId : ℕ) (r c : ℕ) :
    ∀ (cells : List (ℤ × ℤ)) (g : Grid),
      (∀ rc ∈ cells, ((row + rc.1).toNat, (col + rc.2).toNat) ≠ (r, c)) →
      cellN (writeCells g cells row col pieceId) r c = cellN g r c := by
  intro cells
  induction cells with
  | nil => intro g _; rfl
  | cons rc rest ih =>
    intro g hno
    rw [writeCells_cons, ih _ fun rc' hrc' => hno rc' (List.mem_cons_of_mem rc hrc'),
      cellN_setCell_ne]
    exact fun hcc => hno rc (List.mem_cons_self rc rest) hcc.symm

/-- Cells inside the written footprint hold the written id afterwards,
provided every written position is inside the grid's actual extent. -/
lemma cellN_writeCells_target (row col : ℤ) (pieceId : ℕ) (r c : ℕ) :
    ∀ (cells : List (ℤ × ℤ)) (g : Grid),
      (∀ rc ∈ cells, (row + rc.1).toNat < g.length ∧
        (col + rc.2).toNat < (g.getD (row + rc.1).toNat []).length) →
      (∃ rc ∈ cells, ((row + rc.1).toNat, (col + rc.2).toNat) = (r, c)) →
      cellN (writeCells g cells row col pieceId) r c = some pieceId := by
  intro cells
  induction cells with
  | nil =>
    intro g _ hex
    simp at hex
  | cons rc rest ih
  =>
    intro g hbound hex
    rw [writeCells_cons]
    by_cases hrest : ∃ rc' ∈ rest, ((row + rc'.1).toNat, (col + rc'.2).toNat) = (r, c)
    · refine ih _ (fun rc' hrc' => ?_) hrest
      have hb := hbound rc' (List.mem_cons_of_mem rc hrc')
      rw [setCell_length, setCell_row_length]
      exact hb
    · have hhead : ((row + rc.1).toNat, (col + rc.2).toNat) = (r, c) := by
        rcases hex with ⟨rc', hrc', heq⟩
        rcases List.mem_cons.mp hrc' with hh | ht
        · rw [← hh]; exact heq
        · exact absurd ⟨rc', ht, heq⟩ hrest
      rw [cellN_writeCells_not_target row col pieceId r c rest _
        fun rc' hrc' hcc => hrest ⟨rc', hrc', hcc⟩]
      have hb := hbound rc (List.mem_cons_self rc rest)
      have hr : r = (row + rc.1).toNat := by
        have := congrArg Prod.fst hhead; simpa using this.symm
      have hc : c = (col + rc.2).toNat := by
        have := congrArg Prod.snd hhead; simpa using this.symm
      subst hr; subst hc
      exact cellN_setCell_self _ _ _ _ hb.1 hb.2

lemma clearGrid_length (g : Grid) (pieceId : ℕ) :
    (clearGrid g pieceId).length = g.length := by
  rw [clearGrid, List.length_map]

lemma clearGrid_row_length (g : Grid) (pieceId : ℕ) (i : ℕ) :
    ((clearGrid g pieceId).getD i []).length = (g.getD i []).length := by
  rw [clearGrid]
  have h := getD_map (fun r : List (Option ℕ) =>
    r.map fun cell => if cell = some pieceId then none else cell) g i []
  simp only [List.map_nil] at h
  rw [h, List.length_map]

lemma cellN_clearGrid (g : Grid) (pieceId : ℕ) (r c : ℕ) :
    cellN (clearGrid g pieceId) r c =
      if cellN g r c = some pieceId then none else cellN g r c := by
  unfold cellN clearGrid
  have h1 := getD_map (fun row : List (Option ℕ) =>
    row.map fun cell => if cell = some pieceId then none else cell) g r []
  simp only [List.map_nil] at h1
  rw [h1]
  have h2 := getD_map (fun cell : Option ℕ =>
    if cell = some pieceId then none else cell) (g.getD r []) c none
  simp only [if_neg (by simp : ¬ (none : Option ℕ) = some pieceId)] at h2
  rw [h2]

lemma cellN_ne_of_forall (g : Grid) (pieceId : ℕ)
    (h : ∀ r ∈ g, ∀ cell ∈ r, cell ≠ some pieceId) :
    ∀ r c, cellN g r c ≠ some pieceId := by
  intro r c
  by_cases hr : r < g.length
  · by_cases hc : c < (g.getD r []).length
    · exact h _ (getD_mem g r [] hr) _ (getD_mem _ c none hc)
    · rw [cellN, getD_of_length_le _ _ _ (le_of_not_lt hc)]
      simp
  · rw [cellN, getD_of_length_le _ _ _ (le_of_not_lt hr)]
    simp

/-! ## Place and remove (claims C4 and C5) -/

lemma find?_map_update (l : List Piece) (k : ℕ) (u : Piece → Piece)
    (hu : ∀ p, (u p).id = p.id) :
    (l.map u).find? (fun p => p.id == k) = (l.find? fun p => p.id == k).map u := by
  induction l with
  | nil => rfl
  | cons p t ih =>
    simp only [List.map_cons]
    cases hpk : (p.id == k) with
    | true =>
      have h1 : List.find? (fun q => q.id == k) (u p :: t.map u) = some (u p) :=
        List.find?_cons_of_pos _ (by rw [hu]; exact hpk)
      have h2 : List.find? (fun q => q.id == k) (p :: t) = some p :=
        List.find?_cons_of_pos _ hpk
      rw [h1, h2]
      rfl
    | false =>
      have h1 : List.find? (fun q => q.id == k) (u p :: t.map u) =
          List.find? (fun q => q.id == k) (t.map u) :=
        List.find?_cons_of_neg _ (by rw [hu, hpk]; simp)
      have h2 : List.find? (fun q => q.id == k) (p :: t) =
          List.find? (fun q => q.id == k) t :=
        List.find?_cons_of_neg _ (by rw [hpk]; simp)
      rw [h1, h2]
      exact ih

lemma placePiece_of_found (w h : ℕ) (st : PState) (pieceId : ℕ) (row col : ℤ)
    (piece : Piece)
    (hfind : st.pieces.find? (fun p => p.id == pieceId) = some piece)
    (hcan : canPlace st.grid (getCells piece) row col w h none = true) :
    placePiece w h st pieceId row col =
      { grid := writeCells st.grid (getCells piece) row col pieceId
        pieces := st.pieces.map fun p =>
          if p.id == pieceId then
            { p with placed := true, gridRow := row, gridCol := col }
          else p } := by
  rw [placePiece, hfind]
  simp only [hcan, if_true]

lemma removePiece_of_found_placed (st : PState) (pieceId : ℕ) (piece : Piece)
    (hfind : st.pieces.find? (fun p => p.id == pieceId) = some piece)
    (hplaced : piece.placed = true) :
    removePiece st pieceId =
      { grid := clearGrid st.grid pieceId
        pieces := st.pieces.map fun p =>
          if p.id == pieceId then { p with placed := false } else p } := by
  rw [removePiece, hfind]
  simp only [hplaced, if_true]

/-- The update closure of `placePiece` keeps piece ids. -/
lemma place_update_id (pieceId : ℕ) (row col : ℤ) (p : Piece) :
    (if p.id == pieceId then
      { p with placed := true, gridRow := row, gridCol := col } else p).id = p.id := by
  by_cases hp : (p.id == pieceId) = true
  · rw [if_pos hp]
  · rw [if_neg hp]

lemma remove_update_id (pieceId : ℕ) (p : Piece) :
    (if p.id == pieceId then { p with placed := false } else p).id = p.id := by
  by_cases hp : (p.id == pieceId) = true
  · rw [if_pos hp]
  · rw [if_neg hp]

/-- The grid part of the place/remove round trip: clearing a freshly
written id from the grid restores the original occupancy, provided the
id occurred nowhere and the written cells were empty and inside the
grid's extent. -/
lemma clearGrid_writeCells (g : Grid) (cells : List (ℤ × ℤ)) (row col : ℤ)
    (pieceId : ℕ)
    (hbound : ∀ rc ∈ cells, (row + rc.1).toNat < g.length ∧
      (col + rc.2).toNat < (g.getD (row + rc.1).toNat []).length)
    (hempty : ∀ rc ∈ cells, cellN g (row + rc.1).toNat (col + rc.2).toNat = none)
    (hnotin : ∀ r ∈ g, ∀ cell ∈ r, cell ≠ some pieceId) :
    clearGrid (writeCells g cells row col pieceId) pieceId = g := by
  apply grid_ext
  · rw [clearGrid_length, writeCells_length]
  · intro r
    rw [clearGrid_row_length, writeCells_row_length]
  · intro r c
    rw [cellN_clearGrid]
    by_cases htgt : ∃ rc ∈ cells, ((row + rc.1).toNat, (col + rc.2).toNat) = (r, c)
    · rw [cellN_writeCells_target row col pieceId r c cells g hbound htgt, if_pos rfl]
      rcases htgt with ⟨rc, hrc, heq⟩
      have h1 : r = (row + rc.1).toNat := by
        have := congrArg Prod.fst heq; simpa using this.symm
      have h2 : c = (col + rc.2).toNat := by
        have := congrArg Prod.snd heq; simpa using this.symm
      rw [h1, h2, hempty rc hrc]
    · rw [cellN_writeCells_not_target row col pieceId r c cells g
        fun rc hrc hcc => htgt ⟨rc, hrc, hcc⟩]
      rw [if_neg (cellN_ne_of_forall g pieceId hnotin r c)]

/-- C4.  Placing a piece whose id occurs nowhere in the grid (with
`canPlace` true for `excludePieceId = null`) and then removing it
restores the grid occupancy exactly and returns the piece to the
unplaced state. -/
theorem place_then_remove_restores_grid (w h : ℕ) (st : PState) (pieceId : ℕ)
    (row col : ℤ) (piece : Piece)
    (hwf₁ : st.grid.length = h) (hwf₂ : ∀ r ∈ st.grid, r.length = w)
    (hfind : st.pieces.find? (fun p => p.id == pieceId) = some piece)
    (hnotin : ∀ r ∈ st.grid, ∀ cell ∈ r, cell ≠ some pieceId)
    (hcan : canPlace st.grid (getCells piece) row col w h none = true) :
    (removePiece (placePiece w h st pieceId row col) pieceId).grid = st.grid ∧
    ∀ q ∈ (removePiece (placePiece w h st pieceId row col) pieceId).pieces,
      q.id = pieceId → q.placed = false := by
  have hrows := (rows_length_iff st.grid w).mp hwf₂
  have hfacts := (canPlace_spec st.grid (getCells piece) row col w h none).mp hcan
  have hbound : ∀ rc ∈ getCells piece, (row + rc.1).toNat < st.grid.length ∧
      (col + rc.2).toNat < (st.grid.getD (row + rc.1).toNat []).length := by
    intro rc hrc
    rcases hfacts rc hrc with ⟨⟨hb1, hb2, hb3, hb4⟩, -⟩
    constructor
    · omega
    · rw [hrows (row + rc.1).toNat (by omega)]
      omega
  have hempty : ∀ rc ∈ getCells piece,
      cellN st.grid (row + rc.1).toNat (col + rc.2).toNat = none := by
    intro rc hrc
    rcases hfacts rc hrc with ⟨-, hcell | hcell⟩ <;>
      rw [← cellAt_eq_cellN] <;> exact hcell
  rw [placePiece_of_found w h st pieceId row col piece hfind hcan]
  have hid := List.find?_some hfind
  have hid₁ : (piece.id == pieceId) = true := hid
  have hfind₂ :
      (st.pieces.map fun p =>
        if p.id == pieceId then
          { p with placed := true, gridRow := row, gridCol := col }
        else p).find? (fun p => p.id == pieceId) =
      some { piece with placed := true, gridRow := row, gridCol := col } := by
    rw [find?_map_update _ _ _ (place_update_id pieceId row col), hfind]
    exact congrArg some (if_pos hid₁)
  rw [removePiece_of_found_placed _ pieceId _ hfind₂ rfl]
  constructor
  · exact clearGrid_writeCells st.grid (getCells piece) row col pieceId
      hbound hempty hnotin
  · intro q hq hqid
    simp only [List.map_map, List.mem_map, Function.comp_apply] at hq
    rcases hq with ⟨p, hp, hpq⟩
    by_cases hidp : (p.id == pieceId) = true
    · rw [if_pos hidp] at hpq
      have h2 :
          ((Piece.mk p.id p.baseShape p.rotation p.color true row col p.trayOrder).id
            == pieceId) = true := hidp
      rw [if_pos h2] at hpq
      rw [← hpq]
    · rw [if_neg hidp, if_neg hidp] at hpq
      rw [← hpq] at hqid
      exact absurd (by simp [hqid] : (p.id == pieceId) = true) hidp

/-- Witness for C4: a domino placed on an empty 1×2 grid and removed again. -/
theorem place_then_remove_restores_grid_witness :
    ((⟨[[none, none]], [⟨0, [(0, 0), (0, 1)], 0, "", false, 0, 0, 0⟩]⟩ :
        PState).grid.length = 1 ∧
      (∀ r ∈ (⟨[[none, none]], [⟨0, [(0, 0), (0, 1)], 0, "", false, 0, 0, 0⟩]⟩ :
        PState).grid, r.length = 2) ∧
      ((⟨[[none, none]], [⟨0, [(0, 0), (0, 1)], 0, "", false, 0, 0, 0⟩]⟩ :
        PState).pieces.find? (fun p => p.id == 0) =
        some ⟨0, [(0, 0), (0, 1)], 0, "", false, 0, 0, 0⟩) ∧
      (∀ r ∈ (⟨[[none, none]], [⟨0, [(0, 0), (0, 1)], 0, "", false, 0, 0, 0⟩]⟩ :
        PState).grid, ∀ cell ∈ r, cell ≠ some 0) ∧
      canPlace [[none, none]] (getCells ⟨0, [(0, 0), (0, 1)], 0, "", false, 0, 0, 0⟩)
        0 0 2 1 none = true) ∧
    ((removePiece (placePiece 2 1
        ⟨[[none, none]], [⟨0, [(0, 0), (0, 1)], 0, "", false, 0, 0, 0⟩]⟩ 0 0 0) 0).grid =
      [[none, none]] ∧
    ∀ q ∈ (removePiece (placePiece 2 1
        ⟨[[none, none]], [⟨0, [(0, 0), (0, 1)], 0, "", false, 0, 0, 0⟩]⟩ 0 0 0) 0).pieces,
      q.id = 0 → q.placed = false) :=
  ⟨⟨by decide, by decide, by decide, by decide, by decide⟩,
    place_then_remove_restores_grid 2 1
      ⟨[[none, none]], [⟨0, [(0, 0), (0, 1)], 0, "", false, 0, 0, 0⟩]⟩ 0 0 0
      ⟨0, [(0, 0), (0, 1)], 0, "", false, 0, 0, 0⟩
      (by decide) (by decide) (by decide) (by decide) (by decide)⟩

/-- C5 (code bug).  When `canPlace` is false, `placePiece` leaves the
grid unchanged but still marks the requested piece placed at the
requested origin: in the source the `pieces` update sits outside the
`canPlace` guard.  Evaluated on a 1×1 grid with a single 1-cell piece
and the out-of-bounds request (row 0, col 1). -/
theorem placePiece_rejected_still_marks_piece_placed :
    canPlace [[none]]
      (getCells ⟨0, [(0, 0)], 0, "", false, 0, 0, 0⟩) 0 1 1 1 none = false ∧
    (placePiece 1 1 (⟨[[none]], [⟨0, [(0, 0)], 0, "", false, 0, 0, 0⟩]⟩ : PState)
      0 0 1).grid = [[none]] ∧
    ∃ p ∈ (placePiece 1 1 (⟨[[none]], [⟨0, [(0, 0)], 0, "", false, 0, 0, 0⟩]⟩ : PState)
      0 0 1).pieces, p.id = 0 ∧ p.placed = true ∧ p.gridRow = 0 ∧ p.gridCol = 1 := by
  refine ⟨by decide, by decide, ?_⟩
  exact ⟨⟨0, [(0, 0)], 0, "", true, 0, 1, 0⟩, by decide, by decide⟩

/-! ## The occupancy invariant (claim C6) -/

lemma nodup_ids_map (l : List Piece) (u : Piece → Piece)
    (hu : ∀ p, (u p).id = p.id) (h : (l.map Piece.id).Nodup) :
    ((l.map u).map Piece.id).Nodup := by
  rw [List.map_map]
  have heq : l.map (Piece.id ∘ u) = l.map Piece.id :=
    List.map_congr_left fun p _ => hu p
  rw [heq]
  exact h

lemma removePiece_of_not_found (st : PState) (pieceId : ℕ)
    (hfind : st.pieces.find? (fun p => p.id == pieceId) = none) :
    removePiece st pieceId = st := by
  rw [removePiece, hfind]

lemma removePiece_of_not_placed (st : PState) (pieceId : ℕ) (piece : Piece)
    (hfind : st.pieces.find? (fun p => p.id == pieceId) = some piece)
    (hnp : piece.placed = false) :
    removePiece st pieceId = st := by
  rw [removePiece, hfind]
  simp [hnp]

/-- Bounds, emptiness and in-extent facts extracted from a successful
`canPlace` check with `excludePieceId = null` on a well-formed grid. -/
lemma canPlace_none_facts (g : Grid) (cells : List (ℤ × ℤ)) (row col : ℤ) (w h : ℕ)
    (hlen : g.length = h) (hrows : ∀ r ∈ g, r.length = w)
    (hcan : canPlace g cells row col w h none = true) :
    ∀ rc ∈ cells,
      ((row + rc.1).toNat < g.length ∧
        (col + rc.2).toNat < (g.getD (row + rc.1).toNat []).length) ∧
      cellN g (row + rc.1).toNat (col + rc.2).toNat = none ∧
      (0 ≤ row + rc.1 ∧ row + rc.1 < (h : ℤ) ∧ 0 ≤ col + rc.2 ∧ col + rc.2 < (w : ℤ)) := by
  intro rc hrc
  rcases (canPlace_spec g cells row col w h none).mp hcan rc hrc with
    ⟨⟨hb1, hb2, hb3, hb4⟩, hcell⟩
  have hr : (row + rc.1).toNat < g.length := by omega
  have hw : ((g.getD (row + rc.1).toNat []).length) = w :=
    (rows_length_iff g w).mp hrows _ hr
  have hc : (col + rc.2).toNat < (g.getD (row + rc.1).toNat []).length := by
    rw [hw]; omega
  refine ⟨⟨hr, hc⟩, ?_, by omega, by omega, by omega, by omega⟩
  rcases hcell with hcell | hcell <;> rw [← cellAt_eq_cellN] <;> exact hcell

/-- States reachable from a freshly loaded level: an empty `makeGrid`
occupancy map, all pieces unplaced with distinct ids, evolved by
`placePiece` steps each guarded by a successful `canPlace` check of the
moved piece's current cells, and by arbitrary `removePiece` steps. -/
inductive Reachable (w h : ℕ) : PState → Prop where
  | init (st : PState) (hgrid : st.grid = makeGrid w h)
      (hunplaced : ∀ p ∈ st.pieces, p.placed = false)
      (hids : (st.pieces.map Piece.id).Nodup) : Reachable w h st
  | place (st : PState) (pieceId : ℕ) (row col : ℤ) (piece : Piece)
      (hr : Reachable w h st)
      (hfind : st.pieces.find? (fun p => p.id == pieceId) = some piece)
      (hcan : canPlace st.grid (getCells piece) row col w h none = true) :
      Reachable w h (placePiece w h st pieceId row col)
  | remove (st : PState) (pieceId : ℕ) (hr : Reachable w h st) :
      Reachable w h (removePiece st pieceId)

/-- The inductive invariant: well-formed grid dimensions, distinct piece
ids, and every placed piece's effective cells are in bounds and written
with its id in the occupancy map. -/
def Inv (w h : ℕ) (st : PState) : Prop :=
  st.grid.length = h ∧ (∀ r ∈ st.grid, r.length = w) ∧
  (st.pieces.map Piece.id).Nodup ∧
  ∀ p ∈ st.pieces, p.placed = true →
    ∀ rc ∈ getCells p,
      (0 ≤ p.gridRow + rc.1 ∧ p.gridRow + rc.1 < (h : ℤ) ∧
        0 ≤ p.gridCol + rc.2 ∧ p.gridCol + rc.2 < (w : ℤ)) ∧
      cellAt st.grid (p.gridRow + rc.1) (p.gridCol + rc.2) = some p.id

lemma inv_init (w h : ℕ) (st : PState) (hgrid : st.grid = makeGrid w h)
    (hunplaced : ∀ p ∈ st.pieces, p.placed = false)
    (hids : (st.pieces.map Piece.id).Nodup) : Inv w h st := by
  refine ⟨?_, ?_, hids, ?_⟩
  · rw [hgrid, makeGrid, List.length_replicate]
  · intro r hr
    rw [hgrid, makeGrid] at hr
    rw [List.eq_of_mem_replicate hr, List.length_replicate]
  · intro p hp hplaced
    rw [hunplaced p hp] at hplaced
    cases hplaced

lemma inv_place (w h : ℕ) (st : PState) (pieceId : ℕ) (row col : ℤ) (piece : Piece)
    (hinv : Inv w h st)
    (hfind : st.pieces.find? (fun p => p.id == pieceId) = some piece)
    (hcan : canPlace st.grid (getCells piece) row col w h none = true) :
    Inv w h (placePiece w h st pieceId row col) := by
  obtain ⟨hlen, hrowlen, hids, hcov⟩ := hinv
  have hfacts := canPlace_none_facts st.grid (getCells piece) row col w h
    hlen hrowlen hcan
  have hbound : ∀ rc ∈ getCells piece, (row + rc.1).toNat < st.grid.length ∧
      (col + rc.2).toNat < (st.grid.getD (row + rc.1).toNat []).length :=
    fun rc hrc => (hfacts rc hrc).1
  rw [placePiece_of_found w h st pieceId row col piece hfind hcan]
  refine ⟨?_, ?_, ?_, ?_⟩
  · rw [writeCells_length, hlen]
  · rw [rows_length_iff]
    intro i hi
    rw [writeCells_row_length]
    rw [writeCells_length] at hi
    exact (rows_length_iff st.grid w).mp hrowlen i hi
  · exact nodup_ids_map st.pieces _ (place_update_id pieceId row col) hids
  · intro q' hq' hq'placed rc hrc
    rcases List.mem_map.mp hq' with ⟨q, hq, hq'e⟩
    by_cases hqid : (q.id == pieceId) = true
    · have hqpiece : q = piece := by
        refine List.inj_on_of_nodup_map hids hq
          (List.mem_of_find?_eq_some hfind) ?_
        have h1 : q.id = pieceId := by simpa using hqid
        have h2 := List.find?_some hfind
        have h2' : piece.id = pieceId := by simpa using h2
        rw [h1, h2']
      have hq'e2 : q' =
          Piece.mk q.id q.baseShape q.rotation q.color true row col q.trayOrder := by
        rw [← hq'e, if_pos hqid]
      subst hq'e2
      have hrc' : rc ∈ getCells piece := by rw [← hqpiece]; exact hrc
      rcases hfacts rc hrc' with ⟨-, hemp, hbz⟩
      refine ⟨hbz, ?_⟩
      show cellAt (writeCells st.grid (getCells piece) row col pieceId)
        (row + rc.1) (col + rc.2) = some q.id
      rw [cellAt_eq_cellN]
      have hw := cellN_writeCells_target row col pieceId
        (row + rc.1).toNat (col + rc.2).toNat (getCells piece) st.grid hbound
        ⟨rc, hrc', rfl⟩
      rw [hw]
      have h1 : q.id = pieceId := by simpa using hqid
      rw [h1]
    · have hq'e2 : q' = q := by rw [← hq'e, if_neg hqid]
      rw [hq'e2] at hq'placed hrc ⊢
      have hold := hcov q hq hq'placed rc hrc
      refine ⟨hold.1, ?_⟩
      have holdcell := hold.2
      rw [cellAt_eq_cellN] at holdcell ⊢
      rw [cellN_writeCells_not_target]
      · exact holdcell
      · intro rc' hrc' heq
        have hemp' := (hfacts rc' hrc').2.1
        have e1 : (row + rc'.1).toNat = (q.gridRow + rc.1).toNat := by
          have := congrArg Prod.fst heq; simpa using this
        have e2 : (col + rc'.2).toNat = (q.gridCol + rc.2).toNat := by
          have := congrArg Prod.snd heq; simpa using this
        rw [e1, e2, holdcell] at hemp'
        cases hemp'

lemma inv_remove (w h : ℕ) (st : PState) (pieceId : ℕ) (hinv : Inv w h st) :
    Inv w h (removePiece st pieceId) := by
  obtain ⟨hlen, hrowlen, hids, hcov⟩ := hinv
  cases hfind : st.pieces.find? (fun p => p.id == pieceId) with
  | none => rw [removePiece_of_not_found st pieceId hfind]; exact ⟨hlen, hrowlen, hids, hcov⟩
  | some piece =>
    cases hpl : piece.placed with
    | false =>
      rw [removePiece_of_not_placed st pieceId piece hfind hpl]
      exact ⟨hlen, hrowlen, hids, hcov⟩
    | true =>
      rw [removePiece_of_found_placed st pieceId piece hfind hpl]
      refine ⟨?_, ?_, ?_, ?_⟩
      · rw [clearGrid_length, hlen]
      · rw [rows_length_iff]
        intro i hi
        rw [clearGrid_row_length]
        rw [clearGrid_length] at hi
        exact (rows_length_iff st.grid w).mp hrowlen i hi
      · exact nodup_ids_map st.pieces _ (remove_update_id pieceId) hids
      · intro q' hq' hq'placed rc hrc
        rcases List.mem_map.mp hq' with ⟨q, hq, hq'e⟩
        by_cases hqid : (q.id == pieceId) = true
        · have hq'e2 : q' =
              Piece.mk q.id q.baseShape q.rotation q.color false q.gridRow
                q.gridCol q.trayOrder := by
            rw [← hq'e, if_pos hqid]
          rw [hq'e2] at hq'placed
          simp at hq'placed
        · have hq'e2 : q' = q := by rw [← hq'e, if_neg hqid]
          rw [hq'e2] at hq'placed hrc ⊢
          have hold := hcov q hq hq'placed rc hrc
          refine ⟨hold.1, ?_⟩
          have holdcell := hold.2
          rw [cellAt_eq_cellN] at holdcell ⊢
          rw [cellN_clearGrid, holdcell, if_neg]
          intro hsome
          have : q.id = pieceId := Option.some.inj hsome
          exact hqid (by simp [this])

lemma reachable_inv (w h : ℕ) (st : PState) (hr : Reachable w h st) : Inv w h st := by
  induction hr with
  | init st hgrid hunplaced hids => exact inv_init w h st hgrid hunplaced hids
  | place st pieceId row col piece hr hfind hcan ih =>
    exact inv_place w h st pieceId row col piece ih hfind hcan
  | remove st pieceId hr ih => exact inv_remove w h st pieceId ih

/-- C6.  In every state reachable from a fresh empty grid by guarded
place steps and remove steps, a grid cell holds at most one piece id,
and the absolute cell-sets covered by two distinct placed pieces are
disjoint. -/
theorem reachable_placed_pieces_disjoint (w h : ℕ) (st : PState)
    (hreach : Reachable w h st) :
    (∀ r c : ℤ, ∀ i j : ℕ,
      cellAt st.grid r c = some i → cellAt st.grid r c = some j → i = j) ∧
    ∀ p ∈ st.pieces, ∀ q ∈ st.pieces, p.placed = true → q.placed = true → p ≠ q →
      ∀ rc₁ ∈ getCells p, ∀ rc₂ ∈ getCells q,
        (p.gridRow + rc₁.1, p.gridCol + rc₁.2) ≠
          (q.gridRow + rc₂.1, q.gridCol + rc₂.2) := by
  obtain ⟨-, -, hids, hcov⟩ := reachable_inv w h st hreach
  refine ⟨fun r c i j hi hj => by rw [hi] at hj; exact Option.some.inj hj, ?_⟩
  intro p hp q hq hpp hqp hne rc₁ h1 rc₂ h2 heq
  have c1 := (hcov p hp hpp rc₁ h1).2
  have c2 := (hcov q hq hqp rc₂ h2).2
  have e1 : p.gridRow + rc₁.1 = q.gridRow + rc₂.1 := by
    have := congrArg Prod.fst heq; simpa using this
  have e2 : p.gridCol + rc₁.2 = q.gridCol + rc₂.2 := by
    have := congrArg Prod.snd heq; simpa using this
  rw [e1, e2, c2] at c1
  exact hne (List.inj_on_of_nodup_map hids hp hq (Option.some.inj c1).symm)

/-- The initial state used by the C6 witness. -/
def c6state : PState := ⟨makeGrid 1 1, [⟨0, [(0, 0)], 0, "", false, 0, 0, 0⟩]⟩

/-- Witness for C6 at a fresh 1×1 level with one monomino. -/
theorem reachable_placed_pieces_disjoint_witness :
    (∀ r c : ℤ, ∀ i j : ℕ,
      cellAt c6state.grid r c = some i → cellAt c6state.grid r c = some j → i = j) ∧
    ∀ p ∈ c6state.pieces, ∀ q ∈ c6state.pieces,
      p.placed = true → q.placed = true → p ≠ q →
      ∀ rc₁ ∈ getCells p, ∀ rc₂ ∈ getCells q,
        (p.gridRow + rc₁.1, p.gridCol + rc₁.2) ≠
          (q.gridRow + rc₂.1, q.gridCol + rc₂.2) :=
  reachable_placed_pieces_disjoint 1 1 c6state
    (Reachable.init c6state rfl (by decide) (by decide))

/-! ## The tray packer (claim C9)

Every quantity in `trayLayout` is rational (`CELL = 40`,
`TRAY_SCALE = 0.55`, gaps, paddings, halving for centering), so the
pixel arithmetic embeds exactly in `ℚ`. -/

def CELL : ℚ := 40
def PAD : ℚ := 20
def TRAY_SCALE : ℚ := 0.55
def TRAY_ROW_H : ℚ := 55
def GAP : ℚ := 10
def TRAY_PAD_Y : ℚ := 8

/-- One entry of the first pass's `rowItems`: `{ piece, pw, ph }`. -/
structure TrayItem where
  piece : Piece
  pw : ℚ
  ph : ℚ

/-- One entry of `trayLayout.positions`: `{ piece, x, y, w }`. -/
structure TrayPos where
  piece : Piece
  x : ℚ
  y : ℚ
  w : ℚ

/-- One iteration of the first pass of `trayLayout`: compute the piece's
footprint from its **base** shape (rotation 0), wrap to a new row when
the accumulated width would exceed `maxW`, and append the item to the
last row. -/
def trayStep (maxW : ℚ) (acc : List (List TrayItem) × ℚ) (piece : Piece) :
    List (List TrayItem) × ℚ :=
  let pw := ((listMax (piece.baseShape.map Prod.snd) + 1 : ℤ) : ℚ) * CELL * TRAY_SCALE
  let ph := ((listMax (piece.baseShape.map Prod.fst) + 1 : ℤ) : ℚ) * CELL * TRAY_SCALE
  let rx := if 0 < acc.2 ∧ maxW < acc.2 + pw then (acc.1 ++ [[]], (0 : ℚ)) else acc
  (rx.1.dropLast ++ [(rx.1.getLast?.getD []) ++ [⟨piece, pw, ph⟩]], rx.2 + pw + GAP)

/-- The first pass of `trayLayout`: assign rows greedily, left to right,
starting from `[[]]` and `x = 0`. -/
def trayFirstPass (trayPieces : List Piece) (maxW : ℚ) : List (List TrayItem) :=
  (trayPieces.foldl (trayStep maxW) ([[]], 0)).1

/-- One position push of the second pass. -/
def trayRowStep (rowH curY : ℚ) (acc : List TrayPos × ℚ) (it : TrayItem) :
    List TrayPos × ℚ :=
  (acc.1 ++ [⟨it.piece, acc.2, curY + (rowH - it.ph) / 2, it.pw⟩],
    acc.2 + it.pw + GAP)

/-- The second pass of `trayLayout`: center each row under the grid and
assign (x, y) anchors, returning `(positions, trayH)`. -/
def traySecondPass (rowItems : List (List TrayItem)) (gridCenterX trayY : ℚ) :
    List TrayPos × ℚ :=
  let result := rowItems.foldl
    (fun acc row =>
      let totalW := (row.map TrayItem.pw).sum + ((row.length : ℚ) - 1) * GAP
      let rowH := (row.map TrayItem.ph).foldl max TRAY_ROW_H
      let curX := max (PAD / 2) (gridCenterX - totalW / 2)
      let inner := row.foldl (trayRowStep rowH acc.2) (acc.1, curX)
      (inner.1, acc.2 + rowH + TRAY_PAD_Y))
    ([], trayY + TRAY_PAD_Y)
  (result.1, result.2 - trayY + TRAY_PAD_Y)

/-- `index.jsx` / `trayLayout`: the full packer. -/
def trayLayout (trayPieces : List Piece) (gridX : ℚ) (gridW : ℕ) (svgW trayY : ℚ) :
    List TrayPos × ℚ :=
  let gridCenterX := gridX + ((gridW : ℚ) * CELL) / 2
  let maxW := 2 * min gridCenterX (svgW - gridCenterX) - PAD
  traySecondPass (trayFirstPass trayPieces maxW) gridCenterX trayY

/-- Forget a piece's rotation count (two pieces are "identical except
for the rotation fields" when their `stripRotation` images agree). -/
def stripRotation (p : Piece) : Piece := { p with rotation := 0 }

def stripItem (it : TrayItem) : TrayItem := ⟨stripRotation it.piece, it.pw, it.ph⟩

/-- The rotation-independent content of a layout entry: the piece id
and its assigned anchor and bounding width. -/
def stripPos (pos : TrayPos) : ℕ × ℚ × ℚ × ℚ := (pos.piece.id, pos.x, pos.y, pos.w)

lemma map_rows_append_item (A : List (List TrayItem)) (item : TrayItem) :
    (A.dropLast ++ [(A.getLast?.getD []) ++ [item]]).map (List.map stripItem) =
      (A.map (List.map stripItem)).dropLast ++
        [((A.map (List.map stripItem)).getLast?.getD []) ++ [stripItem item]] := by
  rw [List.map_append, List.map_dropLast, List.getLast?_map]
  cases hA : A.getLast? with
  | none => simp
  | some r => simp

lemma trayStep_strip (maxW x : ℚ) (rows₁ rows₂ : List (List TrayItem))
    (p₁ p₂ : Piece) (hp : stripRotation p₁ = stripRotation p₂)
    (hrows : rows₁.map (List.map stripItem) = rows₂.map (List.map stripItem)) :
    (trayStep maxW (rows₁, x) p₁).1.map (List.map stripItem) =
      (trayStep maxW (rows₂, x) p₂).1.map (List.map stripItem) ∧
    (trayStep maxW (rows₁, x) p₁).2 = (trayStep maxW (rows₂, x) p₂).2 := by
  have hbase0 := congrArg Piece.baseShape hp
  have hbase : p₁.baseShape = p₂.baseShape := hbase0
  simp only [trayStep, hbase]
  have hitem : (stripItem ⟨p₁,
      ((listMax (p₂.baseShape.map Prod.snd) + 1 : ℤ) : ℚ) * CELL * TRAY_SCALE,
      ((listMax (p₂.baseShape.map Prod.fst) + 1 : ℤ) : ℚ) * CELL * TRAY_SCALE⟩) =
      (stripItem ⟨p₂,
      ((listMax (p₂.baseShape.map Prod.snd) + 1 : ℤ) : ℚ) * CELL * TRAY_SCALE,
      ((listMax (p₂.baseShape.map Prod.fst) + 1 : ℤ) : ℚ) * CELL * TRAY_SCALE⟩) := by
    simp only [stripItem, hp]
  by_cases hcond : 0 < x ∧ maxW < x +
      ((listMax (p₂.baseShape.map Prod.snd) + 1 : ℤ) : ℚ) * CELL * TRAY_SCALE
  · simp only [if_pos hcond]
    refine ⟨?_, by trivial⟩
    rw [map_rows_append_item, map_rows_append_item, List.map_append,
      List.map_append, hrows, hitem]
  · simp only [if_neg hcond]
    refine ⟨?_, by trivial⟩
    rw [map_rows_append_item, map_rows_append_item, hrows, hitem]

lemma trayFold_strip (maxW : ℚ) :
    ∀ (l₁ l₂ : List Piece) (rows₁ rows₂ : List (List TrayItem)) (x₁ x₂ : ℚ),
      l₁.map stripRotation = l₂.map stripRotation →
      rows₁.map (List.map stripItem) = rows₂.map (List.map stripItem) →
      x₁ = x₂ →
      (l₁.foldl (trayStep maxW) (rows₁, x₁)).1.map (List.map stripItem) =
        (l₂.foldl (trayStep maxW) (rows₂, x₂)).1.map (List.map stripItem) ∧
      (l₁.foldl (trayStep maxW) (rows₁, x₁)).2 =
        (l₂.foldl (trayStep maxW) (rows₂, x₂)).2 := by
  intro l₁
  induction l₁ with
  | nil =>
    intro l₂ rows₁ rows₂ x₁ x₂ hsame hrows hx
    cases l₂ with
    | nil => subst hx; exact ⟨hrows, rfl⟩
    | cons q t => simp at hsame
  | cons p₁ t₁ ih =>
    intro l₂ rows₁ rows₂ x₁ x₂ hsame hrows hx
    cases l₂ with
    | nil => simp at hsame
    | cons p₂ t₂ =>
      simp only [List.map_cons, List.cons.injEq] at hsame
      obtain ⟨hp, ht⟩ := hsame
      subst hx
      obtain ⟨hr', hx'⟩ := trayStep_strip maxW x₁ rows₁ rows₂ p₁ p₂ hp hrows
      simp only [List.foldl_cons]
      exact ih t₂ (trayStep maxW (rows₁, x₁) p₁).1 (trayStep maxW (rows₂, x₁) p₂).1
        (trayStep maxW (rows₁, x₁) p₁).2 (trayStep maxW (rows₂, x₁) p₂).2
        ht hr' hx'

lemma strip_item_pw (it₁ it₂ : TrayItem) (h : stripItem it₁ = stripItem it₂) :
    it₁.pw = it₂.pw := by
  have h0 := congrArg TrayItem.pw h
  exact h0

lemma strip_item_ph (it₁ it₂ : TrayItem) (h : stripItem it₁ = stripItem it₂) :
    it₁.ph = it₂.ph := by
  have h0 := congrArg TrayItem.ph h
  exact h0

lemma strip_item_id (it₁ it₂ : TrayItem) (h : stripItem it₁ = stripItem it₂) :
    it₁.piece.id = it₂.piece.id := by
  have h0 := congrArg TrayItem.piece h
  have h1 := congrArg Piece.id h0
  exact h1

lemma trayRowFold_strip (rowH₁ rowH₂ curY : ℚ) (hrH : rowH₁ = rowH₂) :
    ∀ (row₁ row₂ : List TrayItem) (ps₁ ps₂ : List TrayPos) (x₁ x₂ : ℚ),
      row₁.map stripItem = row₂.map stripItem →
      ps₁.map stripPos = ps₂.map stripPos →
      x₁ = x₂ →
      (row₁.foldl (trayRowStep rowH₁ curY) (ps₁, x₁)).1.map stripPos =
        (row₂.foldl (trayRowStep rowH₂ curY) (ps₂, x₂)).1.map stripPos ∧
      (row₁.foldl (trayRowStep rowH₁ curY) (ps₁, x₁)).2 =
        (row₂.foldl (trayRowStep rowH₂ curY) (ps₂, x₂)).2 := by
  subst hrH
  intro row₁
  induction row₁ with
  | nil =>
    intro row₂ ps₁ ps₂ x₁ x₂ hrow hps hx
    cases row₂ with
    | nil => subst hx; exact ⟨hps, rfl⟩
    | cons it t => simp at hrow
  | cons it₁ t₁ ih =>
    intro row₂ ps₁ ps₂ x₁ x₂ hrow hps hx
    cases row₂ with
    | nil => simp at hrow
    | cons it₂ t₂ =>
      simp only [List.map_cons, List.cons.injEq] at hrow
      obtain ⟨hit, ht⟩ := hrow
      subst hx
      simp only [List.foldl_cons]
      refine ih t₂ _ _ _ _ ht ?_ ?_
      · simp only [trayRowStep, List.map_append, hps]
        simp only [stripPos, strip_item_id it₁ it₂ hit, strip_item_ph it₁ it₂ hit,
          strip_item_pw it₁ it₂ hit, List.map_cons, List.map_nil]
      · simp only [trayRowStep, strip_item_pw it₁ it₂ hit]

lemma strip_row_pw (row₁ row₂ : List TrayItem)
    (h : row₁.map stripItem = row₂.map stripItem) :
    row₁.map TrayItem.pw = row₂.map TrayItem.pw := by
  have := congrArg (List.map TrayItem.pw) h
  rw [List.map_map, List.map_map] at this
  exact this

lemma strip_row_ph (row₁ row₂ : List TrayItem)
    (h : row₁.map stripItem = row₂.map stripItem) :
    row₁.map TrayItem.ph = row₂.map TrayItem.ph := by
  have := congrArg (List.map TrayItem.ph) h
  rw [List.map_map, List.map_map] at this
  exact this

lemma strip_row_length (row₁ row₂ : List TrayItem)
    (h : row₁.map stripItem = row₂.map stripItem) :
    row₁.length = row₂.length := by
  have := congrArg List.length h
  rwa [List.length_map, List.length_map] at this

lemma traySecond_strip (gridCenterX trayY : ℚ) :
    ∀ (rows₁ rows₂ : List (List TrayItem)) (ps₁ ps₂ : List TrayPos) (y₁ y₂ : ℚ),
      rows₁.map (List.map stripItem) = rows₂.map (List.map stripItem) →
      ps₁.map stripPos = ps₂.map stripPos →
      y₁ = y₂ →
      (rows₁.foldl (fun acc row =>
          let totalW := (row.map TrayItem.pw).sum + ((row.length : ℚ) - 1) * GAP
          let rowH := (row.map TrayItem.ph).foldl max TRAY_ROW_H
          let curX := max (PAD / 2) (gridCenterX - totalW / 2)
          let inner := row.foldl (trayRowStep rowH acc.2) (acc.1, curX)
          (inner.1, acc.2 + rowH + TRAY_PAD_Y)) (ps₁, y₁)).1.map stripPos =
        (rows₂.foldl (fun acc row =>
          let totalW := (row.map TrayItem.pw).sum + ((row.length : ℚ) - 1) * GAP
          let rowH := (row.map TrayItem.ph).foldl max TRAY_ROW_H
          let curX := max (PAD / 2) (gridCenterX - totalW / 2)
          let inner := row.foldl (trayRowStep rowH acc.2) (acc.1, curX)
          (inner.1, acc.2 + rowH + TRAY_PAD_Y)) (ps₂, y₂)).1.map stripPos ∧
      (rows₁.foldl (fun acc row =>
          let totalW := (row.map TrayItem.pw).sum + ((row.length : ℚ) - 1) * GAP
          let rowH := (row.map TrayItem.ph).foldl max TRAY_ROW_H
          let curX := max (PAD / 2) (gridCenterX - totalW / 2)
          let inner := row.foldl (trayRowStep rowH acc.2) (acc.1, curX)
          (inner.1, acc.2 + rowH + TRAY_PAD_Y)) (ps₁, y₁)).2 =
        (rows₂.foldl (fun acc row =>
          let totalW := (row.map TrayItem.pw).sum + ((row.length : ℚ) - 1) * GAP
          let rowH := (row.map TrayItem.ph).foldl max TRAY_ROW_H
          let curX := max (PAD / 2) (gridCenterX - totalW / 2)
          let inner := row.foldl (trayRowStep rowH acc.2) (acc.1, curX)
          (inner.1, acc.2 + rowH + TRAY_PAD_Y)) (ps₂, y₂)).2 := by
  intro rows₁
  induction rows₁ with
  | nil =>
    intro rows₂ ps₁ ps₂ y₁ y₂ hrows hps hy
    cases rows₂ with
    | nil => subst hy; exact ⟨hps, rfl⟩
    | cons r t => simp at hrows
  | cons row₁ t₁ ih =>
    intro rows₂ ps₁ ps₂ y₁ y₂ hrows hps hy
    cases rows₂ with
    | nil => simp at hrows
    | cons row₂ t₂ =>
      simp only [List.map_cons, List.cons.injEq] at hrows
      obtain ⟨hrow, ht⟩ := hrows
      subst hy
      simp only [List.foldl_cons]
      have htw : (row₁.map TrayItem.pw).sum + ((row₁.length : ℚ) - 1) * GAP =
          (row₂.map TrayItem.pw).sum + ((row₂.length : ℚ) - 1) * GAP := by
        rw [strip_row_pw row₁ row₂ hrow, strip_row_length row₁ row₂ hrow]
      have hrh : (row₁.map TrayItem.ph).foldl max TRAY_ROW_H =
          (row₂.map TrayItem.ph).foldl max TRAY_ROW_H := by
        rw [strip_row_ph row₁ row₂ hrow]
      obtain ⟨hin1, hin2⟩ := trayRowFold_strip
        ((row₁.map TrayItem.ph).foldl max TRAY_ROW_H)
        ((row₂.map TrayItem.ph).foldl max TRAY_ROW_H) y₁ hrh row₁ row₂ ps₁ ps₂
        (max (PAD / 2) (gridCenterX -
          ((row₁.map TrayItem.pw).sum + ((row₁.length : ℚ) - 1) * GAP) / 2))
        (max (PAD / 2) (gridCenterX -
          ((row₂.map TrayItem.pw).sum + ((row₂.length : ℚ) - 1) * GAP) / 2))
        hrow hps (by rw [htw])
      exact ih t₂ _ _ _ _ ht hin1 (by rw [hrh])

/-- C9.  The tray packer reads only each piece's unrotated base-shape
footprint: two piece lists identical except for their rotation fields
receive identical row assignments, identical (x, y) anchors and bounding
widths, and an identical tray height, for every maximum row width. -/
theorem trayLayout_ignores_rotation (ps₁ ps₂ : List Piece) (gridX : ℚ)
    (gridW : ℕ) (svgW trayY : ℚ)
    (hsame : ps₁.map stripRotation = ps₂.map stripRotation) :
    (∀ maxW : ℚ, (trayFirstPass ps₁ maxW).map (List.map stripItem) =
      (trayFirstPass ps₂ maxW).map (List.map stripItem)) ∧
    (trayLayout ps₁ gridX gridW svgW trayY).1.map stripPos =
      (trayLayout ps₂ gridX gridW svgW trayY).1.map stripPos ∧
    (trayLayout ps₁ gridX gridW svgW trayY).2 =
      (trayLayout ps₂ gridX gridW svgW trayY).2 := by
  have hfirst : ∀ maxW : ℚ, (trayFirstPass ps₁ maxW).map (List.map stripItem) =
      (trayFirstPass ps₂ maxW).map (List.map stripItem) :=
    fun maxW => (trayFold_strip maxW ps₁ ps₂ [[]] [[]] 0 0 hsame rfl rfl).1
  refine ⟨hfirst, ?_⟩
  simp only [trayLayout, traySecondPass]
  obtain ⟨h1, h2⟩ := traySecond_strip
    (gridX + ((gridW : ℚ) * CELL) / 2) trayY
    (trayFirstPass ps₁ (2 * min (gridX + ((gridW : ℚ) * CELL) / 2)
      (svgW - (gridX + ((gridW : ℚ) * CELL) / 2)) - PAD))
    (trayFirstPass ps₂ (2 * min (gridX + ((gridW : ℚ) * CELL) / 2)
      (svgW - (gridX + ((gridW : ℚ) * CELL) / 2)) - PAD))
    [] [] (trayY + TRAY_PAD_Y) (trayY + TRAY_PAD_Y)
    (hfirst _) rfl rfl
  exact ⟨h1, by rw [h2]⟩

/-- Witness for C9: a domino tray piece at rotation 0 versus rotation 1. -/
theorem trayLayout_ignores_rotation_witness :
    (([⟨0, [((0 : ℤ), (0 : ℤ)), (0, 1)], 0, "", false, 0, 0, 0⟩] :
        List Piece).map stripRotation =
      ([⟨0, [((0 : ℤ), (0 : ℤ)), (0, 1)], 1, "", false, 0, 0, 0⟩] :
        List Piece).map stripRotation) ∧
    ((∀ maxW : ℚ,
      (trayFirstPass [⟨0, [((0 : ℤ), (0 : ℤ)), (0, 1)], 0, "", false, 0, 0, 0⟩]
        maxW).map (List.map stripItem) =
      (trayFirstPass [⟨0, [((0 : ℤ), (0 : ℤ)), (0, 1)], 1, "", false, 0, 0, 0⟩]
        maxW).map (List.map stripItem)) ∧
    (trayLayout [⟨0, [((0 : ℤ), (0 : ℤ)), (0, 1)], 0, "", false, 0, 0, 0⟩]
        0 1 0 0).1.map stripPos =
      (trayLayout [⟨0, [((0 : ℤ), (0 : ℤ)), (0, 1)], 1, "", false, 0, 0, 0⟩]
        0 1 0 0).1.map stripPos ∧
    (trayLayout [⟨0, [((0 : ℤ), (0 : ℤ)), (0, 1)], 0, "", false, 0, 0, 0⟩]
        0 1 0 0).2 =
      (trayLayout [⟨0, [((0 : ℤ), (0 : ℤ)), (0, 1)], 1, "", false, 0, 0, 0⟩]
        0 1 0 0).2) :=
  ⟨by decide,
    trayLayout_ignores_rotation
      [⟨0, [((0 : ℤ), (0 : ℤ)), (0, 1)], 0, "", false, 0, 0, 0⟩]
      [⟨0, [((0 : ℤ), (0 : ℤ)), (0, 1)], 1, "", false, 0, 0, 0⟩]
      0 1 0 0 (by decide)⟩

/-! ## The gesture recognizer (claims C7 and C8)

`updateGesture` of `index.jsx`, with the floating-point pointer
geometry (`Math.sqrt`, `Math.atan2`, `Math.PI`, `performance.now()`)
modelled over the real numbers; the sample time `now` becomes an
explicit argument. -/

/-- `Math.PI`: 180° of accumulated turning triggers a rotation. -/
noncomputable def TURN_THRESHOLD : ℝ := Real.pi

/-- Milliseconds before another rotation can fire. -/
def GESTURE_COOLDOWN : ℝ := 400

/-- `Math.atan2 y x` (two-argument arctangent, real-valued model).
`ℝ` has no signed zero, so `Math.atan2(-0, x) = -π` for `x < 0` has no
counterpart here; every concrete input evaluated in this development is
chosen so that the cross products the engine feeds to `Math.atan2` are
`+0` under IEEE-754 evaluation, where the model and `Math.atan2`
agree. -/
noncomputable def atan2 (y x : ℝ) : ℝ :=
  if 0 < x then Real.arctan (y / x)
  else if x < 0 then
    (if 0 ≤ y then Real.arctan (y / x) + Real.pi else Real.arctan (y / x) - Real.pi)
  else
    (if 0 < y then Real.pi / 2 else if y < 0 then -(Real.pi / 2) else 0)

/-- The gesture recognizer's mutable state (`gestureRef.current`). -/
structure GState where
  points : List (ℝ × ℝ)
  totalTurn : ℝ
  cooldownUntil : ℝ

/-- `index.jsx` / `resetGesture`. -/
def resetGestureState : GState := ⟨[], 0, 0⟩

/-- The history push with ring-buffer trim:

    g.points.push({ x, y })
    if (g.points.length > 30) g.points.splice(0, g.points.length - 25)
-/
def pushTrim (points : List (ℝ × ℝ)) (x y : ℝ) : List (ℝ × ℝ) :=
  let pts := points ++ [(x, y)]
  if 30 < pts.length then pts.drop (pts.length - 25) else pts

/-- The three most recent history entries `points[n-3], points[n-2],
points[n-1]` (only consulted when the history holds at least three). -/
def lastThree (pts : List (ℝ × ℝ)) : (ℝ × ℝ) × (ℝ × ℝ) × (ℝ × ℝ) :=
  (pts.getD (pts.length - 3) (0, 0), pts.getD (pts.length - 2) (0, 0),
    pts.getD (pts.length - 1) (0, 0))

/-- Length of the displacement vector from `p` to `q`
(`Math.sqrt(vx*vx + vy*vy)`). -/
noncomputable def vlen (p q : ℝ × ℝ) : ℝ :=
  Real.sqrt ((q.1 - p.1) * (q.1 - p.1) + (q.2 - p.2) * (q.2 - p.2))

/-- The jitter test `len1 < 1 || len2 < 1` on the two most recent
displacement vectors. -/
noncomputable def noiseSkip (pts : List (ℝ × ℝ)) : Prop :=
  vlen (lastThree pts).1 (lastThree pts).2.1 < 1 ∨
    vlen (lastThree pts).2.1 (lastThree pts).2.2 < 1

noncomputable instance (pts : List (ℝ × ℝ)) : Decidable (noiseSkip pts) := by
  unfold noiseSkip
  infer_instance

/-- The signed turning angle `atan2(cross(v1,v2), dot(v1,v2))` between
the two most recent displacement vectors. -/
noncomputable def sampleTurn (pts : List (ℝ × ℝ)) : ℝ :=
  atan2
    (((lastThree pts).2.1.1 - (lastThree pts).1.1) *
        ((lastThree pts).2.2.2 - (lastThree pts).2.1.2) -
      ((lastThree pts).2.1.2 - (lastThree pts).1.2) *
        ((lastThree pts).2.2.1 - (lastThree pts).2.1.1))
    (((lastThree pts).2.1.1 - (lastThree pts).1.1) *
        ((lastThree pts).2.2.1 - (lastThree pts).2.1.1) +
      ((lastThree pts).2.1.2 - (lastThree pts).1.2) *
        ((lastThree pts).2.2.2 - (lastThree pts).2.1.2))

/-- `index.jsx` / `updateGesture(x, y)`: returns `1` (CW), `-1` (CCW)
or `0`, together with the successor recognizer state. -/
noncomputable def updateGesture (g : GState) (x y now : ℝ) : ℤ × GState :=
  if now < g.cooldownUntil then (0, { g with points := [] })
  else
    let pts := pushTrim g.points x y
    if pts.length < 3 then (0, { g with points := pts })
    else if noiseSkip pts then (0, { g with points := pts })
    else
      let total := g.totalTurn + sampleTurn pts
      if TURN_THRESHOLD < total then (1, ⟨[], 0, now + GESTURE_COOLDOWN⟩)
      else if total < -TURN_THRESHOLD then (-1, ⟨[], 0, now + GESTURE_COOLDOWN⟩)
      else (0, { g with points := pts, totalTurn := total })

/-- Feed a whole sequence of pointer samples `(x, y, t)` through the
recognizer, collecting the per-sample results. -/
noncomputable def feedGesture (g : GState) (samples : List (ℝ × ℝ × ℝ)) :
    List ℤ × GState :=
  match samples with
  | [] => ([], g)
  | s :: rest =>
      let step := updateGesture g s.1 s.2.1 s.2.2
      let next := feedGesture step.2 rest
      (step.1 :: next.1, next.2)

/-- The turn added to the accumulator by one sample: zero when the
sample falls in the cooldown window, the history is still short, or the
noise floor rejects it. -/
noncomputable def turnSample (g : GState) (x y now : ℝ) : ℝ :=
  if now < g.cooldownUntil then 0
  else if (pushTrim g.points x y).length < 3 then 0
  else if noiseSkip (pushTrim g.points x y) then 0
  else sampleTurn (pushTrim g.points x y)

lemma updateGesture_cooldown (g : GState) (x y now : ℝ)
    (h1 : now < g.cooldownUntil) :
    updateGesture g x y now = (0, { g with points := [] }) := by
  simp only [updateGesture]
  rw [if_pos h1]

lemma updateGesture_short (g : GState) (x y now : ℝ)
    (h1 : ¬ now < g.cooldownUntil) (h2 : (pushTrim g.points x y).length < 3) :
    updateGesture g x y now = (0, { g with points := pushTrim g.points x y }) := by
  simp only [updateGesture]
  rw [if_neg h1, if_pos h2]

lemma updateGesture_noise (g : GState) (x y now : ℝ)
    (h1 : ¬ now < g.cooldownUntil) (h2 : ¬ (pushTrim g.points x y).length < 3)
    (h3 : noiseSkip (pushTrim g.points x y)) :
    updateGesture g x y now = (0, { g with points := pushTrim g.points x y }) := by
  simp only [updateGesture]
  rw [if_neg h1, if_neg h2, if_pos h3]

lemma updateGesture_emit_cw (g : GState) (x y now : ℝ)
    (h1 : ¬ now < g.cooldownUntil) (h2 : ¬ (pushTrim g.points x y).length < 3)
    (h3 : ¬ noiseSkip (pushTrim g.points x y))
    (h4 : TURN_THRESHOLD < g.totalTurn + sampleTurn (pushTrim g.points x y)) :
    updateGesture g x y now = (1, ⟨[], 0, now + GESTURE_COOLDOWN⟩) := by
  simp only [updateGesture]
  rw [if_neg h1, if_neg h2, if_neg h3, if_pos h4]

lemma updateGesture_emit_ccw (g : GState) (x y now : ℝ)
    (h1 : ¬ now < g.cooldownUntil) (h2 : ¬ (pushTrim g.points x y).length < 3)
    (h3 : ¬ noiseSkip (pushTrim g.points x y))
    (h4 : ¬ TURN_THRESHOLD < g.totalTurn + sampleTurn (pushTrim g.points x y))
    (h5 : g.totalTurn + sampleTurn (pushTrim g.points x y) < -TURN_THRESHOLD) :
    updateGesture g x y now = (-1, ⟨[], 0, now + GESTURE_COOLDOWN⟩) := by
  simp only [updateGesture]
  rw [if_neg h1, if_neg h2, if_neg h3, if_neg h4, if_pos h5]

lemma updateGesture_accum (g : GState) (x y now : ℝ)
    (h1 : ¬ now < g.cooldownUntil) (h2 : ¬ (pushTrim g.points x y).length < 3)
    (h3 : ¬ noiseSkip (pushTrim g.points x y))
    (h4 : ¬ TURN_THRESHOLD < g.totalTurn + sampleTurn (pushTrim g.points x y))
    (h5 : ¬ g.totalTurn + sampleTurn (pushTrim g.points x y) < -TURN_THRESHOLD) :
    updateGesture g x y now =
      (0, { g with
            points := pushTrim g.points x y,
            totalTurn := g.totalTurn + sampleTurn (pushTrim g.points x y) }) := by
  simp only [updateGesture]
  rw [if_neg h1, if_neg h2, if_neg h3, if_neg h4, if_neg h5]

lemma feedGesture_nil (g : GState) : feedGesture g [] = ([], g) := rfl

lemma feedGesture_cons (g : GState) (s : ℝ × ℝ × ℝ) (rest : List (ℝ × ℝ × ℝ)) :
    feedGesture g (s :: rest) =
      ((updateGesture g s.1 s.2.1 s.2.2).1 ::
          (feedGesture (updateGesture g s.1 s.2.1 s.2.2).2 rest).1,
        (feedGesture (updateGesture g s.1 s.2.1 s.2.2).2 rest).2) := rfl

/-- During an active cooldown window every sample yields result 0 and
leaves the cooldown deadline unchanged. -/
lemma feedGesture_all_zero_of_cooldown :
    ∀ (feed : List (ℝ × ℝ × ℝ)) (g : GState),
      (∀ s ∈ feed, s.2.2 < g.cooldownUntil) →
      ∀ r ∈ (feedGesture g feed).1, r = 0 := by
  intro feed
  induction feed with
  | nil => intro g _ r hr; simp [feedGesture_nil] at hr
  | cons s rest ih =>
    intro g hall r hr
    have hcool : s.2.2 < g.cooldownUntil := hall s (List.mem_cons_self s rest)
    rw [feedGesture_cons, updateGesture_cooldown g s.1 s.2.1 s.2.2 hcool] at hr
    rcases List.mem_cons.mp hr with hr0 | hrrest
    · exact hr0
    · exact ih { g with points := [] }
        (fun s' hs' => hall s' (List.mem_cons_of_mem s hs')) r hrrest

/-- C7.  A rotate-clockwise event is emitted exactly when, outside the
cooldown window, the accumulated signed turn (the stored accumulator
plus this sample's turn) exceeds +π; emitting resets the accumulator
and the history and opens a 400 ms cooldown during which every further
sample yields no rotate event; and the stored accumulator never exceeds
π after a step. -/
theorem updateGesture_rotate_emission_spec (g : GState) (x y now : ℝ)
    (hacc : g.totalTurn ≤ Real.pi) :
    ((updateGesture g x y now).1 = 1 ↔
      ¬ now < g.cooldownUntil ∧ Real.pi < g.totalTurn + turnSample g x y now) ∧
    ((updateGesture g x y now).1 ≠ 0 →
      (updateGesture g x y now).2 = ⟨[], 0, now + GESTURE_COOLDOWN⟩) ∧
    (∀ feed : List (ℝ × ℝ × ℝ), (updateGesture g x y now).1 ≠ 0 →
      (∀ s ∈ feed, s.2.2 < now + GESTURE_COOLDOWN) →
      ∀ r ∈ (feedGesture (updateGesture g x y now).2 feed).1, r = 0) ∧
    (updateGesture g x y now).2.totalTurn ≤ Real.pi := by
  by_cases h1 : now < g.cooldownUntil
  · rw [updateGesture_cooldown g x y now h1]
    have ht : turnSample g x y now = 0 := by rw [turnSample, if_pos h1]
    refine ⟨?_, ?_, ?_, ?_⟩
    · simp only [ht, add_zero]
      constructor
      · intro h; simp at h
      · rintro ⟨hna, -⟩; exact absurd h1 hna
    · intro hne; simp at hne
    · intro feed hne _; simp at hne
    · exact hacc
  · by_cases h2 : (pushTrim g.points x y).length < 3
    · rw [updateGesture_short g x y now h1 h2]
      have ht : turnSample g x y now = 0 := by
        rw [turnSample, if_neg h1, if_pos h2]
      refine ⟨?_, ?_, ?_, ?_⟩
      · simp only [ht, add_zero]
        constructor
        · intro h; simp at h
        · rintro ⟨-, hgt⟩; exact absurd hgt (not_lt.mpr hacc)
      · intro hne; simp at hne
      · intro feed hne _; simp at hne
      · exact hacc
    · by_cases h3 : noiseSkip (pushTrim g.points x y)
      · rw [updateGesture_noise g x y now h1 h2 h3]
        have ht : turnSample g x y now = 0 := by
          rw [turnSample, if_neg h1, if_neg h2, if_pos h3]
        refine ⟨?_, ?_, ?_, ?_⟩
        · simp only [ht, add_zero]
          constructor
          · intro h; simp at h
          · rintro ⟨-, hgt⟩; exact absurd hgt (not_lt.mpr hacc)
        · intro hne; simp at hne
        · intro feed hne _; simp at hne
        · exact hacc
      · have ht : turnSample g x y now = sampleTurn (pushTrim g.points x y) := by
          rw [turnSample, if_neg h1, if_neg h2, if_neg h3]
        by_cases h4 : TURN_THRESHOLD <
            g.totalTurn + sampleTurn (pushTrim g.points x y)
        · rw [updateGesture_emit_cw g x y now h1 h2 h3 h4]
          refine ⟨?_, ?_, ?_, ?_⟩
          · constructor
            · intro _
              refine ⟨h1, ?_⟩
              rw [ht]
              exact h4
            · intro _; rfl
          · intro _; rfl
          · intro feed _ hall
            exact feedGesture_all_zero_of_cooldown feed
              ⟨[], 0, now + GESTURE_COOLDOWN⟩ hall
          · exact Real.pi_nonneg
        · by_cases h5 : g.totalTurn + sampleTurn (pushTrim g.points x y) <
              -TURN_THRESHOLD
          · rw [updateGesture_emit_ccw g x y now h1 h2 h3 h4 h5]
            refine ⟨?_, ?_, ?_, ?_⟩
            · constructor
              · intro hh; simp at hh
              · rintro ⟨-, hgt⟩
                rw [ht] at hgt
                exact absurd hgt h4
            · intro _; rfl
            · intro feed _ hall
              exact feedGesture_all_zero_of_cooldown feed
                ⟨[], 0, now + GESTURE_COOLDOWN⟩ hall
            · exact Real.pi_nonneg
          · rw [updateGesture_accum g x y now h1 h2 h3 h4 h5]
            refine ⟨?_, ?_, ?_, ?_⟩
            · constructor
              · intro hh; simp at hh
              · rintro ⟨-, hgt⟩
                rw [ht] at hgt
                exact absurd hgt h4
            · intro hne; simp at hne
            · intro feed hne _; simp at hne
            · exact not_lt.mp h4

/-- Witness for C7 at a fresh recognizer state. -/
theorem updateGesture_rotate_emission_spec_witness :
    ((0 : ℝ) ≤ Real.pi) ∧
    (updateGesture ⟨[], 0, 0⟩ 0 0 0).2.totalTurn ≤ Real.pi :=
  ⟨Real.pi_nonneg,
    (updateGesture_rotate_emission_spec ⟨[], 0, 0⟩ 0 0 0 Real.pi_nonneg).2.2.2⟩

lemma atan2_zero_pos (x : ℝ) (hx : 0 < x) : atan2 0 x = 0 := by
  rw [atan2, if_pos hx, zero_div, Real.arctan_zero]

lemma atan2_zero_neg (x : ℝ) (hx : x < 0) : atan2 0 x = Real.pi := by
  rw [atan2, if_neg (not_lt.mpr hx.le), if_pos hx, if_pos (le_refl (0 : ℝ)),
    zero_div, Real.arctan_zero, zero_add]

/-- Evaluation of the zigzag counterexample, step 1. -/
lemma zigzag_step1 :
    updateGesture ⟨[], 0, 0⟩ 0 0 0 = (0, ⟨[((0 : ℝ), (0 : ℝ))], 0, 0⟩) := by
  rw [updateGesture_short ⟨[], 0, 0⟩ 0 0 0 (by norm_num) (by norm_num [pushTrim])]
  rfl

/-- Evaluation of the zigzag counterexample, step 2. -/
lemma zigzag_step2 :
    updateGesture ⟨[((0 : ℝ), (0 : ℝ))], 0, 0⟩ 2 2 1 =
      (0, ⟨[((0 : ℝ), (0 : ℝ)), (2, 2)], 0, 0⟩) := by
  rw [updateGesture_short ⟨[((0 : ℝ), (0 : ℝ))], 0, 0⟩ 2 2 1 (by norm_num)
    (by norm_num [pushTrim])]
  rfl

lemma zigzag_noise3 :
    ¬ noiseSkip [((0 : ℝ), (0 : ℝ)), (2, 2), (0, 0)] := by
  have hl : lastThree [((0 : ℝ), (0 : ℝ)), (2, 2), (0, 0)] =
      ((0, 0), (2, 2), (0, 0)) := rfl
  rw [noiseSkip, hl]
  simp only [vlen]
  norm_num

lemma zigzag_turn3 :
    sampleTurn [((0 : ℝ), (0 : ℝ)), (2, 2), (0, 0)] = Real.pi := by
  have hl : lastThree [((0 : ℝ), (0 : ℝ)), (2, 2), (0, 0)] =
      ((0, 0), (2, 2), (0, 0)) := rfl
  rw [sampleTurn, hl]
  norm_num
  exact atan2_zero_neg (-8) (by norm_num)

/-- Evaluation of the zigzag counterexample, step 3: the first reversal
accumulates `atan2(0, -8) = π`, which does not yet exceed the strict
threshold.  (Under IEEE-754 evaluation the engine's cross product here
is `2*(-2) - 2*(-2) = (-4) - (-4) = +0`, so `Math.atan2` also returns
`+π`.) -/
lemma zigzag_step3 :
    updateGesture ⟨[((0 : ℝ), (0 : ℝ)), (2, 2)], 0, 0⟩ 0 0 2 =
      (0, ⟨[((0 : ℝ), (0 : ℝ)), (2, 2), (0, 0)], 0 + Real.pi, 0⟩) := by
  have h4 : ¬ TURN_THRESHOLD <
      (0 : ℝ) + sampleTurn [((0 : ℝ), (0 : ℝ)), (2, 2), (0, 0)] := by
    rw [zigzag_turn3, TURN_THRESHOLD, zero_add]
    exact lt_irrefl Real.pi
  have h5 : ¬ ((0 : ℝ) + sampleTurn [((0 : ℝ), (0 : ℝ)), (2, 2), (0, 0)] <
      -TURN_THRESHOLD) := by
    rw [zigzag_turn3, TURN_THRESHOLD, zero_add, not_lt]
    linarith [Real.pi_nonneg]
  rw [updateGesture_accum ⟨[((0 : ℝ), (0 : ℝ)), (2, 2)], 0, 0⟩ 0 0 2 (by norm_num)
    (by norm_num [pushTrim]) zigzag_noise3 h4 h5]
  show (0, GState.mk [((0 : ℝ), (0 : ℝ)), (2, 2), (0, 0)]
      ((0 : ℝ) + sampleTurn [((0 : ℝ), (0 : ℝ)), (2, 2), (0, 0)]) 0) = _
  rw [zigzag_turn3]

lemma zigzag_noise4 :
    ¬ noiseSkip [((0 : ℝ), (0 : ℝ)), (2, 2), (0, 0), (2, 2)] := by
  have hl : lastThree [((0 : ℝ), (0 : ℝ)), (2, 2), (0, 0), (2, 2)] =
      ((2, 2), (0, 0), (2, 2)) := rfl
  rw [noiseSkip, hl]
  simp only [vlen]
  norm_num

lemma zigzag_turn4 :
    sampleTurn [((0 : ℝ), (0 : ℝ)), (2, 2), (0, 0), (2, 2)] = Real.pi := by
  have hl : lastThree [((0 : ℝ), (0 : ℝ)), (2, 2), (0, 0), (2, 2)] =
      ((2, 2), (0, 0), (2, 2)) := rfl
  rw [sampleTurn, hl]
  norm_num
  exact atan2_zero_neg (-8) (by norm_num)

/-- Evaluation of the zigzag counterexample, step 4: the second reversal
pushes the accumulator to `2π > π` and a rotate-clockwise event fires.
(The engine's cross product here is `(-2)*2 - (-2)*2 = (-4) - (-4) =
+0` under IEEE-754 evaluation, so `Math.atan2(+0, -8) = +π` as in the
model.) -/
lemma zigzag_step4 :
    updateGesture ⟨[((0 : ℝ), (0 : ℝ)), (2, 2), (0, 0)], 0 + Real.pi, 0⟩ 2 2 3 =
      (1, ⟨[], 0, 3 + GESTURE_COOLDOWN⟩) := by
  have h4 : TURN_THRESHOLD < ((0 : ℝ) + Real.pi) +
      sampleTurn [((0 : ℝ), (0 : ℝ)), (2, 2), (0, 0), (2, 2)] := by
    rw [zigzag_turn4, TURN_THRESHOLD, zero_add]
    linarith [Real.pi_pos]
  exact updateGesture_emit_cw ⟨[((0 : ℝ), (0 : ℝ)), (2, 2), (0, 0)], 0 + Real.pi, 0⟩
    2 2 3 (by norm_num) (by norm_num [pushTrim]) zigzag_noise4 h4

/-- C8 counterexample.  Four colinear pointer samples (all on the line
`y = x`), moving back and forth along it, make `updateGesture` emit a
rotate-clockwise event at the fourth sample: each direction reversal
contributes `atan2(0, negative) = π` to the accumulator, so two
reversals exceed the `+π` threshold.  On this input the engine's cross
products evaluate to `+0` under IEEE-754 arithmetic (`(-4) - (-4)`),
so `Math.atan2` returns `+π` exactly as the real-valued model does. -/
theorem colinear_zigzag_emits_rotation :
    (∀ s ∈ ([((0 : ℝ), (0 : ℝ), (0 : ℝ)), (2, 2, 1), (0, 0, 2), (2, 2, 3)] :
        List (ℝ × ℝ × ℝ)), s.2.1 = s.1) ∧
    (feedGesture resetGestureState
      [((0 : ℝ), (0 : ℝ), (0 : ℝ)), (2, 2, 1), (0, 0, 2), (2, 2, 3)]).1 =
      [0, 0, 0, 1] := by
  constructor
  · intro s hs
    simp only [List.mem_cons, List.not_mem_nil, or_false] at hs
    rcases hs with rfl | rfl | rfl | rfl <;> rfl
  · show (feedGesture ⟨[], 0, 0⟩
      [((0 : ℝ), (0 : ℝ), (0 : ℝ)), (2, 2, 1), (0, 0, 2), (2, 2, 3)]).1 = [0, 0, 0, 1]
    simp only [feedGesture_cons, feedGesture_nil]
    rw [zigzag_step1]
    dsimp only
    rw [zigzag_step2]
    dsimp only
    rw [zigzag_step3]
    dsimp only
    rw [zigzag_step4]

/-- A point of the line through `b` with direction `d`, at parameter `t`. -/
def linePt (b d : ℝ × ℝ) (t : ℝ) : ℝ × ℝ := (b.1 + t * d.1, b.2 + t * d.2)

lemma linePt_fst (b d : ℝ × ℝ) (t : ℝ) : (linePt b d t).1 = b.1 + t * d.1 := rfl

lemma linePt_snd (b d : ℝ × ℝ) (t : ℝ) : (linePt b d t).2 = b.2 + t * d.2 := rfl

lemma getD_lt {α : Type} (l : List α) (i : ℕ) (d : α) (h : i < l.length) :
    l.getD i d = l[i] := by
  rw [List.getD_eq_getElem?_getD, List.getElem?_eq_getElem h]
  rfl

lemma pairwise_getD_le (l : List ℝ) (hl : l.Pairwise (· ≤ ·)) (i j : ℕ)
    (hij : i < j) (hj : j < l.length) : l.getD i 0 ≤ l.getD j 0 := by
  have hi : i < l.length := lt_trans hij hj
  rw [getD_lt l i 0 hi, getD_lt l j 0 hj]
  exact List.pairwise_iff_getElem.mp hl i j hi hj hij

lemma vlen_linePt (b d : ℝ × ℝ) (u v : ℝ) :
    vlen (linePt b d u) (linePt b d v) =
      Real.sqrt ((v - u) * (v - u) * (d.1 * d.1 + d.2 * d.2)) := by
  rw [vlen, linePt_fst, linePt_fst, linePt_snd, linePt_snd]
  congr 1
  ring

/-- If the noise floor accepts the displacement between two line points
with ordered parameters, the parameter strictly increased and the
direction vector is non-degenerate. -/
lemma line_step_pos (b d : ℝ × ℝ) (u v : ℝ) (huv : u ≤ v)
    (hlen : ¬ vlen (linePt b d u) (linePt b d v) < 1) :
    0 < v - u ∧ 0 < d.1 * d.1 + d.2 * d.2 := by
  rw [vlen_linePt, not_lt] at hlen
  have hA0 : (0 : ℝ) ≤ (v - u) * (v - u) * (d.1 * d.1 + d.2 * d.2) := by
    by_contra hneg
    push_neg at hneg
    have := Real.sqrt_eq_zero'.mpr hneg.le
    rw [this] at hlen
    linarith
  have hA1 : (1 : ℝ) ≤ (v - u) * (v - u) * (d.1 * d.1 + d.2 * d.2) := by
    have hms := Real.mul_self_sqrt hA0
    nlinarith [Real.sqrt_nonneg ((v - u) * (v - u) * (d.1 * d.1 + d.2 * d.2))]
  have hvu : 0 < v - u := by
    rcases lt_or_eq_of_le (sub_nonneg.mpr huv) with h | h
    · exact h
    · rw [← h] at hA1
      norm_num at hA1
  refine ⟨hvu, ?_⟩
  by_contra hD
  push_neg at hD
  nlinarith [mul_pos hvu hvu]

/-- The heart of the amended C8: starting from zero accumulated turn,
with a history of line points at monotone parameters all bounded by the
remaining samples' parameters, feeding monotone colinear samples never
produces a rotate event. -/
lemma feed_colinear_zero (b d : ℝ × ℝ) :
    ∀ (samples : List (ℝ × ℝ × ℝ)) (ts ts₀ : List ℝ) (g : GState),
      samples.map (fun s => (s.1, s.2.1)) = ts.map (linePt b d) →
      (ts₀ ++ ts).Pairwise (· ≤ ·) →
      g.points = ts₀.map (linePt b d) →
      g.totalTurn = 0 →
      ∀ r ∈ (feedGesture g samples).1, r = 0 := by
  intro samples
  induction samples with
  | nil =>
    intro ts ts₀ g _ _ _ _ r hr
    simp [feedGesture_nil] at hr
  | cons s rest ih =>
    intro ts ts₀ g hmap hsorted hpts htot r hr
    cases ts with
    | nil => simp at hmap
    | cons t ts' =>
      simp only [List.map_cons, List.cons.injEq] at hmap
      obtain ⟨hs, hrest⟩ := hmap
      have hs1 : s.1 = b.1 + t * d.1 := congrArg Prod.fst hs
      have hs2 : s.2.1 = b.2 + t * d.2 := congrArg Prod.snd hs
      rw [feedGesture_cons] at hr
      by_cases h1 : s.2.2 < g.cooldownUntil
      · rw [updateGesture_cooldown g s.1 s.2.1 s.2.2 h1] at hr
        rcases List.mem_cons.mp hr with hr0 | hrrest
        · exact hr0
        · refine ih ts' [] { g with points := [] } hrest ?_ rfl htot r hrrest
          have hsub : List.Sublist ts' (ts₀ ++ t :: ts') :=
            (List.sublist_cons_self t ts').trans
              (List.sublist_append_right ts₀ (t :: ts'))
          simpa using List.Pairwise.sublist hsub hsorted
      · have hl : ts₀.map (linePt b d) ++ [((b.1 + t * d.1, b.2 + t * d.2) : ℝ × ℝ)] =
            (ts₀ ++ [t]).map (linePt b d) := by
          rw [List.map_append]
          rfl
        have hpush : pushTrim g.points s.1 s.2.1 =
            (if 30 < (ts₀ ++ [t]).length then
              ((ts₀ ++ [t]).drop ((ts₀ ++ [t]).length - 25)).map (linePt b d)
            else (ts₀ ++ [t]).map (linePt b d)) := by
          rw [pushTrim, hpts, hs1, hs2]
          show (if 30 < (ts₀.map (linePt b d) ++
              [((b.1 + t * d.1, b.2 + t * d.2) : ℝ × ℝ)]).length then _ else _) = _
          rw [hl, List.length_map]
          by_cases hlen : 30 < (ts₀ ++ [t]).length
          · rw [if_pos hlen, if_pos hlen, List.map_drop]
          · rw [if_neg hlen, if_neg hlen]
        have hpush2 : pushTrim g.points s.1 s.2.1 =
            (if 30 < (ts₀ ++ [t]).length then
              (ts₀ ++ [t]).drop ((ts₀ ++ [t]).length - 25)
            else (ts₀ ++ [t])).map (linePt b d) := by
          rw [hpush]
          by_cases hlen : 30 < (ts₀ ++ [t]).length
          · rw [if_pos hlen, if_pos hlen]
          · rw [if_neg hlen, if_neg hlen]
        have hassoc : (ts₀ ++ [t]) ++ ts' = ts₀ ++ t :: ts' := by
          rw [List.append_assoc]
          rfl
        have hwsub : List.Sublist ((if 30 < (ts₀ ++ [t]).length then
            (ts₀ ++ [t]).drop ((ts₀ ++ [t]).length - 25)
          else (ts₀ ++ [t])) ++ ts') ((ts₀ ++ [t]) ++ ts') := by
          by_cases hlen : 30 < (ts₀ ++ [t]).length
          · rw [if_pos hlen]
            exact (List.drop_sublist _ _).append_right ts'
          · rw [if_neg hlen]
        have hsorted' : ((if 30 < (ts₀ ++ [t]).length then
            (ts₀ ++ [t]).drop ((ts₀ ++ [t]).length - 25)
          else (ts₀ ++ [t])) ++ ts').Pairwise (· ≤ ·) := by
          refine List.Pairwise.sublist hwsub ?_
          rw [hassoc]
          exact hsorted
        by_cases h2 : (pushTrim g.points s.1 s.2.1).length < 3
        · rw [updateGesture_short g s.1 s.2.1 s.2.2 h1 h2] at hr
          rcases List.mem_cons.mp hr with hr0 | hrrest
          · exact hr0
          · exact ih ts' _
              (GState.mk (pushTrim g.points s.1 s.2.1) g.totalTurn g.cooldownUntil)
              hrest hsorted' hpush2 htot r hrrest
        · by_cases h3 : noiseSkip (pushTrim g.points s.1 s.2.1)
          · rw [updateGesture_noise g s.1 s.2.1 s.2.2 h1 h2 h3] at hr
            rcases List.mem_cons.mp hr with hr0 | hrrest
            · exact hr0
            · exact ih ts' _
                (GState.mk (pushTrim g.points s.1 s.2.1) g.totalTurn g.cooldownUntil)
                hrest hsorted' hpush2 htot r hrrest
          · have hst : sampleTurn (pushTrim g.points s.1 s.2.1) = 0 := by
              generalize hws : (if 30 < (ts₀ ++ [t]).length then
                  (ts₀ ++ [t]).drop ((ts₀ ++ [t]).length - 25)
                else (ts₀ ++ [t])) = ws at hpush2
              have h2' : ¬ (ws.map (linePt b d)).length < 3 := by
                rw [← hpush2]; exact h2
              have h3' : ¬ noiseSkip (ws.map (linePt b d)) := by
                rw [← hpush2]; exact h3
              have hlen3 : 3 ≤ ws.length := by
                rw [List.length_map] at h2'
                omega
              have hwssorted : ws.Pairwise (· ≤ ·) := by
                rw [hws] at hsorted'
                exact List.Pairwise.sublist (List.sublist_append_left ws ts') hsorted'
              have hget : ∀ i, i < ws.length →
                  (ws.map (linePt b d)).getD i (0, 0) = linePt b d (ws.getD i 0) := by
                intro i hi
                rw [getD_lt _ _ _ (by rw [List.length_map]; exact hi),
                  getD_lt _ _ _ hi, List.getElem_map]
              have hL3 : lastThree (ws.map (linePt b d)) =
                  (linePt b d (ws.getD (ws.length - 3) 0),
                    linePt b d (ws.getD (ws.length - 2) 0),
                    linePt b d (ws.getD (ws.length - 1) 0)) := by
                rw [lastThree, List.length_map,
                  hget (ws.length - 3) (by omega), hget (ws.length - 2) (by omega),
                  hget (ws.length - 1) (by omega)]
              have h01 : ws.getD (ws.length - 3) 0 ≤ ws.getD (ws.length - 2) 0 :=
                pairwise_getD_le ws hwssorted _ _ (by omega) (by omega)
              have h12 : ws.getD (ws.length - 2) 0 ≤ ws.getD (ws.length - 1) 0 :=
                pairwise_getD_le ws hwssorted _ _ (by omega) (by omega)
              rw [noiseSkip, hL3] at h3'
              push_neg at h3'
              obtain ⟨h3a, h3b⟩ := h3'
              have hp1 := line_step_pos b d _ _ h01 (not_lt.mpr h3a)
              have hp2 := line_step_pos b d _ _ h12 (not_lt.mpr h3b)
              rw [hpush2, sampleTurn, hL3]
              show atan2
                (((b.1 + ws.getD (ws.length - 2) 0 * d.1) -
                    (b.1 + ws.getD (ws.length - 3) 0 * d.1)) *
                  ((b.2 + ws.getD (ws.length - 1) 0 * d.2) -
                    (b.2 + ws.getD (ws.length - 2) 0 * d.2)) -
                  ((b.2 + ws.getD (ws.length - 2) 0 * d.2) -
                    (b.2 + ws.getD (ws.length - 3) 0 * d.2)) *
                  ((b.1 + ws.getD (ws.length - 1) 0 * d.1) -
                    (b.1 + ws.getD (ws.length - 2) 0 * d.1)))
                (((b.1 + ws.getD (ws.length - 2) 0 * d.1) -
                    (b.1 + ws.getD (ws.length - 3) 0 * d.1)) *
                  ((b.1 + ws.getD (ws.length - 1) 0 * d.1) -
                    (b.1 + ws.getD (ws.length - 2) 0 * d.1)) +
                  ((b.2 + ws.getD (ws.length - 2) 0 * d.2) -
                    (b.2 + ws.getD (ws.length - 3) 0 * d.2)) *
                  ((b.2 + ws.getD (ws.length - 1) 0 * d.2) -
                    (b.2 + ws.getD (ws.length - 2) 0 * d.2))) = 0
              have hc : ((b.1 + ws.getD (ws.length - 2) 0 * d.1) -
                    (b.1 + ws.getD (ws.length - 3) 0 * d.1)) *
                  ((b.2 + ws.getD (ws.length - 1) 0 * d.2) -
                    (b.2 + ws.getD (ws.length - 2) 0 * d.2)) -
                  ((b.2 + ws.getD (ws.length - 2) 0 * d.2) -
                    (b.2 + ws.getD (ws.length - 3) 0 * d.2)) *
                  ((b.1 + ws.getD (ws.length - 1) 0 * d.1) -
                    (b.1 + ws.getD (ws.length - 2) 0 * d.1)) = 0 := by ring
              have hd : ((b.1 + ws.getD (ws.length - 2) 0 * d.1) -
                    (b.1 + ws.getD (ws.length - 3) 0 * d.1)) *
                  ((b.1 + ws.getD (ws.length - 1) 0 * d.1) -
                    (b.1 + ws.getD (ws.length - 2) 0 * d.1)) +
                  ((b.2 + ws.getD (ws.length - 2) 0 * d.2) -
                    (b.2 + ws.getD (ws.length - 3) 0 * d.2)) *
                  ((b.2 + ws.getD (ws.length - 1) 0 * d.2) -
                    (b.2 + ws.getD (ws.length - 2) 0 * d.2)) =
                  (ws.getD (ws.length - 2) 0 - ws.getD (ws.length - 3) 0) *
                    (ws.getD (ws.length - 1) 0 - ws.getD (ws.length - 2) 0) *
                    (d.1 * d.1 + d.2 * d.2) := by ring
              rw [hc, hd]
              exact atan2_zero_pos _ (mul_pos (mul_pos hp1.1 hp2.1) hp1.2)
            have h4 : ¬ TURN_THRESHOLD <
                g.totalTurn + sampleTurn (pushTrim g.points s.1 s.2.1) := by
              rw [hst, htot, TURN_THRESHOLD, add_zero, not_lt]
              exact Real.pi_nonneg
            have h5 : ¬ (g.totalTurn + sampleTurn (pushTrim g.points s.1 s.2.1) <
                -TURN_THRESHOLD) := by
              rw [hst, htot, TURN_THRESHOLD, add_zero, not_lt]
              linarith [Real.pi_nonneg]
            rw [updateGesture_accum g s.1 s.2.1 s.2.2 h1 h2 h3 h4 h5] at hr
            rcases List.mem_cons.mp hr with hr0 | hrrest
            · refine hr0
            · refine ih ts' _
                (GState.mk (pushTrim g.points s.1 s.2.1)
                  (g.totalTurn + sampleTurn (pushTrim g.points s.1 s.2.1))
                  g.cooldownUntil)
                hrest hsorted' hpush2 ?_ r hrrest
              show g.totalTurn + sampleTurn (pushTrim g.points s.1 s.2.1) = 0
              rw [hst, htot, add_zero]

/-- C8 (amended).  Feeding a sequence of pointer samples that all lie
on one fixed line and move monotonically along it (each position is
`b + t·d` with non-decreasing parameters `t`) to a fresh gesture
recognizer never emits a rotate event: `updateGesture` returns 0 at
every step. -/
theorem colinear_monotone_drag_never_rotates (samples : List (ℝ × ℝ × ℝ))
    (b d : ℝ × ℝ) (ts : List ℝ)
    (hmono : ts.Pairwise (· ≤ ·))
    (hline : samples.map (fun s => (s.1, s.2.1)) = ts.map (linePt b d)) :
    ∀ r ∈ (feedGesture resetGestureState samples).1, r = 0 :=
  feed_colinear_zero b d samples ts [] resetGestureState hline
    (by simpa using hmono) rfl rfl

/-- Witness for C8 (amended): two samples moving rightwards along `y = 0`. -/
theorem colinear_monotone_drag_never_rotates_witness :
    (([(0 : ℝ), 2] : List ℝ).Pairwise (· ≤ ·) ∧
      ([((0 : ℝ), (0 : ℝ), (0 : ℝ)), (2, 0, 1)] :
          List (ℝ × ℝ × ℝ)).map (fun s => (s.1, s.2.1)) =
        ([(0 : ℝ), 2] : List ℝ).map (linePt (0, 0) (1, 0))) ∧
    ∀ r ∈ (feedGesture resetGestureState
      [((0 : ℝ), (0 : ℝ), (0 : ℝ)), (2, 0, 1)]).1, r = 0 :=
  ⟨⟨by norm_num [List.pairwise_cons], by norm_num [linePt]⟩,
    colinear_monotone_drag_never_rotates [((0 : ℝ), (0 : ℝ), (0 : ℝ)), (2, 0, 1)]
      (0, 0) (1, 0) [(0 : ℝ), 2] (by norm_num [List.pairwise_cons])
      (by norm_num [linePt])⟩

end TilePuzzles
